import Mathlib

/-!
# Verification of the typedoc-mintlify rendering core

This file gives a shallow embedding, in Lean 4, of the rendering and
cross-reference engine of the `typedoc-mintlify` repository, and settles a
list of claims about it.

The embedding mirrors the source files:

* `src/utils.ts` — `slugify`, the recursive type formatter `formatType`
  (namespace `Utils`);
* `src/components.ts` — the Mintlify component generators
  (namespace `Components`);
* `src/reflection-renderer.ts` — the per-declaration MDX renderer
  (namespace `ReflectionRenderer`);
* `src/theme.ts` — the URL/reference-map construction, the index-page link
  injector and `flattenHeadings` (namespace `Theme`);
* `src/renderer.js` — the text post-processing pass `beautifyStructure`
  together with the helpers it calls (namespace `Renderer`).

JavaScript strings are modelled as Lean `String` / `List Char`; each regular
expression of the source is implemented as a dedicated scanner whose
behaviour (leftmost match, greedy/lazy quantifiers, `/g` continuation after
the match) follows the JavaScript semantics of that concrete pattern.  The
original pattern is quoted in a comment next to each scanner.
`String.prototype.toLowerCase` is modelled as ASCII lowering (`Char.toLower`);
for the character-class properties proved here the two agree.
-/

/-! ## Generic string helpers -/

/-- Word character of the JavaScript regex class `\w` : `[A-Za-z0-9_]`. -/
def isWordChar (c : Char) : Bool :=
  ('a' ≤ c && c ≤ 'z') || ('A' ≤ c && c ≤ 'Z') || ('0' ≤ c && c ≤ '9') || c == '_'

/-- Whitespace of the JavaScript regex class `\s` (ASCII part). -/
def isJsSpace (c : Char) : Bool :=
  c == ' ' || c == '\t' || c == '\n' || c == '\r' || c == '\x0b' || c == '\x0c'

/-- Uppercase ASCII letter, the class `[A-Z]`. -/
def isUpperAscii (c : Char) : Bool := 'A' ≤ c && c ≤ 'Z'

/-- Substring occurrence test (the JavaScript `String.prototype.includes`). -/
def containsSub (needle : List Char) : List Char → Bool
  | [] => needle == []
  | c :: cs => needle.isPrefixOf (c :: cs) || containsSub needle cs

/-- `hay.includes needle` on strings. -/
def strIncludes (hay needle : String) : Bool := containsSub needle.data hay.data

/-- JavaScript `String.prototype.startsWith` (kernel-reducible). -/
def strStartsWith (s pre : String) : Bool := pre.data.isPrefixOf s.data

/-- JavaScript `String.prototype.endsWith` (kernel-reducible). -/
def strEndsWith (s suf : String) : Bool := suf.data.isSuffixOf s.data

/-- First index of a substring occurrence (JavaScript `String.prototype.indexOf`),
`none` when absent. -/
def indexOfSub (needle : List Char) : List Char → Option Nat
  | [] => if needle == [] then some 0 else none
  | c :: cs =>
    if needle.isPrefixOf (c :: cs) then some 0
    else (indexOfSub needle cs).map (· + 1)

/-- Count of non-overlapping occurrences of a literal
(the length of `s.match(/lit/g) || []`). -/
def countSubAux (needle : List Char) : Nat → List Char → Nat
  | 0, _ => 0
  | _, [] => 0
  | fuel + 1, c :: cs =>
    if needle.isPrefixOf (c :: cs) then
      1 + countSubAux needle fuel ((c :: cs).drop needle.length)
    else countSubAux needle fuel cs

/-- Non-overlapping occurrence count on strings. -/
def countSub (hay needle : String) : Nat :=
  countSubAux needle.data (hay.data.length + 1) hay.data

/-- JavaScript `String.prototype.trim` (both ends, whitespace incl. newlines). -/
def jsTrimChars (l : List Char) : List Char :=
  ((l.dropWhile isJsSpace).reverse.dropWhile isJsSpace).reverse

/-- `trim` on strings. -/
def jsTrim (s : String) : String := ⟨jsTrimChars s.data⟩

/-- JavaScript `toLowerCase`, modelled on ASCII letters. -/
def jsLower (s : String) : String := ⟨s.data.map Char.toLower⟩

/-- `String.prototype.split('\n')` : split at every newline, keeping empty
pieces (n newlines give n+1 pieces). -/
def splitLinesAux (cur : List Char) : List Char → List (List Char)
  | [] => [cur.reverse]
  | c :: rest =>
    if c == '\n' then cur.reverse :: splitLinesAux [] rest
    else splitLinesAux (c :: cur) rest

/-- Split a string into its lines, JavaScript `split('\n')`. -/
def splitLines (s : String) : List String :=
  (splitLinesAux [] s.data).map fun l => ⟨l⟩

/-- `Array.prototype.join('\n')`. -/
def joinLines : List String → String
  | [] => ""
  | [l] => l
  | l :: ls => l ++ "\n" ++ joinLines ls

/-- Strip a literal suffix when present (models `replace(/suf$/, '')` for a
literal suffix such as `\.mdx$`). -/
def stripSuffixStr (s suf : String) : String :=
  if suf.data.isSuffixOf s.data then ⟨s.data.take (s.data.length - suf.data.length)⟩ else s

/-- Lookup in an insertion-ordered map (`Map.prototype.get`). -/
def lookupMap (m : List (String × String)) (k : String) : Option String :=
  match m.find? (fun p => p.1 == k) with
  | some p => some p.2
  | none => none

/-- `Map.prototype.set` : overwrite an existing key in place, else append. -/
def mapSet (m : List (String × String)) (k v : String) : List (String × String) :=
  if m.any (fun p => p.1 == k) then
    m.map (fun p => if p.1 == k then (k, v) else p)
  else m ++ [(k, v)]

namespace Utils

/-! ## `src/utils.ts` — `slugify` -/

/-- The character class `[a-z0-9]` of `slugify`'s regex. -/
def isSlugChar (c : Char) : Bool :=
  ('a' ≤ c && c ≤ 'z') || ('0' ≤ c && c ≤ '9')

/-- `replace(/[^a-z0-9]+/g, '-')` : every maximal run of characters outside
`[a-z0-9]` becomes a single `'-'`.  The flag records whether we are inside
such a run. -/
def collapseNonAlnum : Bool → List Char → List Char
  | _, [] => []
  | inRun, c :: cs =>
    if isSlugChar c then c :: collapseNonAlnum false cs
    else if inRun then collapseNonAlnum true cs
    else '-' :: collapseNonAlnum true cs

/-- `replace(/^-+|-+$/g, '')` : drop the leading and the trailing run of
hyphens. -/
def trimDashes (l : List Char) : List Char :=
  ((l.dropWhile (· == '-')).reverse.dropWhile (· == '-')).reverse

/-- `src/utils.ts` lines 83–88:
`text.toLowerCase().replace(/[^a-z0-9]+/g, '-').replace(/^-+|-+$/g, '')`. -/
def slugify (text : String) : String :=
  ⟨trimDashes (collapseNonAlnum false (text.data.map Char.toLower))⟩

/-- Well-formedness of a slug: only lowercase ASCII letters, digits and
hyphens, and no hyphen at either end. -/
def slugOk (s : String) : Bool :=
  s.data.all (fun c => isSlugChar c || c == '-') &&
  s.data.head? != some '-' && s.data.getLast? != some '-'

end Utils

namespace ReflectionRenderer

/-! ## `src/reflection-renderer.ts` — parameter-location classifier -/

/-- `determineParameterLocation` (`src/reflection-renderer.ts` lines 766–804):
ordered name heuristics mapping a parameter name to
`path` / `header` / `query` / `body`. -/
def determineParameterLocation (name : String) : String :=
  let nameLower := jsLower name
  if strIncludes nameLower "id" && !strIncludes nameLower "userid" &&
      !strIncludes nameLower "accountid" then "path"
  else if strIncludes nameLower "header" || nameLower == "authorization" ||
      nameLower == "auth" || nameLower == "apikey" then "header"
  else if strIncludes nameLower "query" || strIncludes nameLower "limit" ||
      strIncludes nameLower "offset" || strIncludes nameLower "page" ||
      strIncludes nameLower "sort" || strIncludes nameLower "filter" then "query"
  else if strIncludes nameLower "body" || strIncludes nameLower "data" ||
      strIncludes nameLower "payload" || strIncludes nameLower "request" then "body"
  else "path"

/-- `generateParameterDescription` (`src/reflection-renderer.ts` lines
809–845): synthesize a description from the name/type lexicon. -/
def generateParameterDescription (name ty : String) : String :=
  let nameLower := jsLower name
  if strIncludes nameLower "id" then "Unique identifier for the resource."
  else if strIncludes nameLower "url" || strIncludes nameLower "endpoint" then
    "The API endpoint URL."
  else if strIncludes nameLower "key" || strIncludes nameLower "token" ||
      strIncludes nameLower "auth" then "Authentication credentials or API key."
  else if strIncludes nameLower "options" || strIncludes nameLower "config" then
    "Configuration options for the request."
  else if strIncludes nameLower "data" || strIncludes nameLower "body" ||
      strIncludes nameLower "payload" then "Request payload data."
  else if strIncludes nameLower "limit" then "Maximum number of results to return."
  else if strIncludes nameLower "offset" || strIncludes nameLower "skip" then
    "Number of results to skip."
  else if strIncludes nameLower "timeout" then "Request timeout in milliseconds."
  else if ty == "string" then "The " ++ name ++ " value."
  else if ty == "number" then "Numeric value for " ++ name ++ "."
  else if ty == "boolean" then "Whether " ++ name ++ " is enabled."
  else "The " ++ name ++ " parameter."

/-- A string ends with a period (its last character is `'.'`). -/
def endsPeriod (s : String) : Bool := s.data.getLast? == some '.'

end ReflectionRenderer

namespace Utils

/-! ## `src/utils.ts` — the type-expression language and `formatType`

The TypeDoc `Type` union is embedded as a mutual inductive family.  Lists of
types (and of parameters/signatures) are given their own list inductives so
that the formatter can be compiled by structural recursion (and therefore
evaluates by kernel reduction). -/

/-- Value of a TypeDoc `LiteralType` (`JSON.stringify`-able). -/
inductive LitValue where
  | str (s : String)
  | num (n : Int)
  | bool (b : Bool)
  | null
deriving DecidableEq, Repr

/-- Hex digit for `\u00XX` escapes. -/
def hexDigit (n : Nat) : Char :=
  if n < 10 then Char.ofNat ('0'.toNat + n) else Char.ofNat ('a'.toNat + n - 10)

/-- `JSON.stringify` escaping of one character of a string literal. -/
def jsonEscapeChar (c : Char) : List Char :=
  if c == '"' then ['\\', '"']
  else if c == '\\' then ['\\', '\\']
  else if c == '\n' then ['\\', 'n']
  else if c == '\r' then ['\\', 'r']
  else if c == '\t' then ['\\', 't']
  else if c == '\x08' then ['\\', 'b']
  else if c == '\x0c' then ['\\', 'f']
  else if c.toNat < 32 then
    ['\\', 'u', '0', '0', hexDigit (c.toNat / 16), hexDigit (c.toNat % 16)]
  else [c]

/-- `JSON.stringify` of a literal value (used by the `literal` branch of
`formatType`). -/
def jsonStringify : LitValue → String
  | .str s => ⟨'"' :: (s.data.flatMap jsonEscapeChar) ++ ['"']⟩
  | .num n => toString n
  | .bool b => if b then "true" else "false"
  | .null => "null"

mutual

/-- TypeDoc `Type` (`type.type` discriminates the variants handled by
`formatType`, `src/utils.ts` lines 96–236).  `templateLiteral` and `other`
carry the optional result of `toString()`. -/
inductive Ty where
  | intrinsic (name : String)
  | reference (name : String) (typeArguments : TyList)
  | array (elementType : Ty)
  | union (types : TyList)
  | intersection (types : TyList)
  | literal (value : LitValue)
  | tuple (elements : TyList)
  | reflection (declaration : OptDecl)
  | conditional (checkType extendsType trueType falseType : Ty)
  | indexedAccess (objectType indexType : Ty)
  | query (queryTypeName : Option String)
  | predicate (name : Option String) (type : OptTy)
  | templateLiteral (toStringText : Option String)
  | other (toStringText : Option String)

/-- A possibly-absent type (`Type | undefined`). -/
inductive OptTy where
  | none
  | some (t : Ty)

/-- A list of types (`Type[]`). -/
inductive TyList where
  | nil
  | cons (head : Ty) (tail : TyList)

/-- A possibly-absent declaration inside a `ReflectionType`. -/
inductive OptDecl where
  | none
  | some (d : ReflDecl)

/-- The declaration carried by a `ReflectionType`: its signatures and its
children, as used by the `reflection` branch of `formatType`. -/
inductive ReflDecl where
  | mk (signatures : SigList) (children : ParamList)

/-- A list of signatures. -/
inductive SigList where
  | nil
  | cons (head : ReflSig) (tail : SigList)

/-- One signature: parameters and optional return type. -/
inductive ReflSig where
  | mk (parameters : ParamList) (returnType : OptTy)

/-- A list of parameters / children. -/
inductive ParamList where
  | nil
  | cons (head : ReflParam) (tail : ParamList)

/-- One parameter or child member: name, `flags.isOptional`, optional type. -/
inductive ReflParam where
  | mk (name : String) (isOptional : Bool) (type : OptTy)

end

mutual

/-- `formatType` (`src/utils.ts` lines 96–236) on a present `Type` value.
`refs` is the optional `typeToUrlMap` (an insertion-ordered name → URL map);
the unused `currentPageUrl` parameter of the source is omitted because it is
only threaded through, never read. -/
def formatTy (refs : List (String × String)) : Ty → String
  | .intrinsic name => name
  | .reference name args =>
    -- link the name when the map has it, then append `<args>` if non-empty
    let typeName :=
      match lookupMap refs name with
      | Option.some targetUrl =>
        let cleanUrl := stripSuffixStr targetUrl ".mdx"
        let absoluteUrl := if strStartsWith cleanUrl "/" then cleanUrl else "/" ++ cleanUrl
        "[" ++ name ++ "](" ++ absoluteUrl ++ ")"
      | Option.none => name
    match args with
    | .nil => typeName
    | .cons _ _ => typeName ++ "<" ++ String.intercalate ", " (formatTyList refs args) ++ ">"
  | .array elem => formatTy refs elem ++ "[]"
  | .union ts => String.intercalate " | " (formatTyList refs ts)
  | .intersection ts => String.intercalate " & " (formatTyList refs ts)
  | .literal v => jsonStringify v
  | .tuple ts => "[" ++ String.intercalate ", " (formatTyList refs ts) ++ "]"
  | .reflection d => formatReflDecl refs d
  | .conditional c e t f =>
    formatTy refs c ++ " extends " ++ formatTy refs e ++ " ? " ++
      formatTy refs t ++ " : " ++ formatTy refs f
  | .indexedAccess o i => formatTy refs o ++ "[" ++ formatTy refs i ++ "]"
  | .query n =>
    -- `typeof ${query.queryType?.name || 'unknown'}`
    "typeof " ++ (match n with
      | Option.some s => if s == "" then "unknown" else s
      | Option.none => "unknown")
  | .predicate n t =>
    -- `${predicate.name || 'this'} is ${formatType(predicate.type)}`
    (match n with
      | Option.some s => if s == "" then "this" else s
      | Option.none => "this") ++ " is " ++ formatTyOpt refs t
  | .templateLiteral ts =>
    -- `type.toString?.() || 'string'`
    (match ts with
      | Option.some s => if s == "" then "string" else s
      | Option.none => "string")
  | .other ts =>
    -- fallback: `type.toString?.() || 'any'`
    (match ts with
      | Option.some s => if s == "" then "any" else s
      | Option.none => "any")

/-- `formatType` applied to a `Type | undefined` value: absent types render
as `any` (lines 101–103). -/
def formatTyOpt (refs : List (String × String)) : OptTy → String
  | .none => "any"
  | .some t => formatTy refs t

/-- Format each element of a type list (the `.map(t => formatType(t, …))`
calls of the source). -/
def formatTyList (refs : List (String × String)) : TyList → List String
  | .nil => []
  | .cons h t => formatTy refs h :: formatTyList refs t

/-- The `reflection` branch (lines 170–199): function signature, object
shape, or the fallback token `object`. -/
def formatReflDecl (refs : List (String × String)) : OptDecl → String
  | .none => "object"
  | .some (.mk sigs children) =>
    match sigs with
    | .cons (.mk params ret) _ =>
      "(" ++ String.intercalate ", " (formatParamList refs params) ++ ") => " ++
        formatTyOpt refs ret
    | .nil =>
      match children with
      | .cons _ _ =>
        "\x7b " ++ String.intercalate "; " (formatParamList refs children) ++ " \x7d"
      | .nil => "object"

/-- `${p.name}${optional}: ${formatType(p.type)}` for each parameter/child. -/
def formatParamList (refs : List (String × String)) : ParamList → List String
  | .nil => []
  | .cons (.mk name opt ty) rest =>
    (name ++ (if opt then "?" else "") ++ ": " ++ formatTyOpt refs ty) ::
      formatParamList refs rest

end

/-- Top-level `formatType` argument: `Type | string | null | undefined`. -/
inductive TypeInput where
  | null
  | str (s : String)
  | type (t : Ty)

/-- `formatType` exactly as exported (lines 96–107 dispatch): absent input
gives `any`, a plain string is returned unchanged, a `Type` is formatted. -/
def formatType (refs : List (String × String)) : TypeInput → String
  | .null => "any"
  | .str s => s
  | .type t => formatTy refs t

mutual

/-- Size of a type tree: one per node of the family. -/
def sizeTy : Ty → Nat
  | .intrinsic _ => 1
  | .reference _ args => 1 + sizeTyList args
  | .array t => 1 + sizeTy t
  | .union ts => 1 + sizeTyList ts
  | .intersection ts => 1 + sizeTyList ts
  | .literal _ => 1
  | .tuple ts => 1 + sizeTyList ts
  | .reflection d => 1 + sizeOptDecl d
  | .conditional c e t f => 1 + sizeTy c + sizeTy e + sizeTy t + sizeTy f
  | .indexedAccess o i => 1 + sizeTy o + sizeTy i
  | .query _ => 1
  | .predicate _ t => 1 + sizeOptTy t
  | .templateLiteral _ => 1
  | .other _ => 1

/-- Size of an optional type. -/
def sizeOptTy : OptTy → Nat
  | .none => 1
  | .some t => 1 + sizeTy t

/-- Size of a type list. -/
def sizeTyList : TyList → Nat
  | .nil => 1
  | .cons h t => 1 + sizeTy h + sizeTyList t

/-- Size of an optional declaration. -/
def sizeOptDecl : OptDecl → Nat
  | .none => 1
  | .some d => 1 + sizeReflDecl d

/-- Size of a reflection declaration. -/
def sizeReflDecl : ReflDecl → Nat
  | .mk sigs children => 1 + sizeSigList sigs + sizeParamList children

/-- Size of a signature list. -/
def sizeSigList : SigList → Nat
  | .nil => 1
  | .cons s t => 1 + sizeReflSig s + sizeSigList t

/-- Size of a signature. -/
def sizeReflSig : ReflSig → Nat
  | .mk params ret => 1 + sizeParamList params + sizeOptTy ret

/-- Size of a parameter list. -/
def sizeParamList : ParamList → Nat
  | .nil => 1
  | .cons p t => 1 + sizeReflParam p + sizeParamList t

/-- Size of a parameter. -/
def sizeReflParam : ReflParam → Nat
  | .mk _ _ ty => 1 + sizeOptTy ty

end

mutual

/-- Fuel-instrumented `formatTy`: every recursive call of the formatter
consumes one unit of fuel; `none` means the fuel ran out.  Used to state that
the recursion of the source terminates on every finite tree. -/
def formatTyFuel (refs : List (String × String)) : Nat → Ty → Option String
  | 0, _ => Option.none
  | n + 1, t =>
    match t with
    | .intrinsic name => Option.some name
    | .reference name args =>
      let typeName :=
        match lookupMap refs name with
        | Option.some targetUrl =>
          let cleanUrl := stripSuffixStr targetUrl ".mdx"
          let absoluteUrl := if strStartsWith cleanUrl "/" then cleanUrl else "/" ++ cleanUrl
          "[" ++ name ++ "](" ++ absoluteUrl ++ ")"
        | Option.none => name
      match args with
      | .nil => Option.some typeName
      | .cons _ _ =>
        (formatTyListFuel refs n args).map fun ss =>
          typeName ++ "<" ++ String.intercalate ", " ss ++ ">"
    | .array elem => (formatTyFuel refs n elem).map (· ++ "[]")
    | .union ts => (formatTyListFuel refs n ts).map (String.intercalate " | ")
    | .intersection ts => (formatTyListFuel refs n ts).map (String.intercalate " & ")
    | .literal v => Option.some (jsonStringify v)
    | .tuple ts =>
      (formatTyListFuel refs n ts).map fun ss => "[" ++ String.intercalate ", " ss ++ "]"
    | .reflection d => formatReflDeclFuel refs n d
    | .conditional c e t' f => do
      let sc ← formatTyFuel refs n c
      let se ← formatTyFuel refs n e
      let st ← formatTyFuel refs n t'
      let sf ← formatTyFuel refs n f
      pure (sc ++ " extends " ++ se ++ " ? " ++ st ++ " : " ++ sf)
    | .indexedAccess o i => do
      let so ← formatTyFuel refs n o
      let si ← formatTyFuel refs n i
      pure (so ++ "[" ++ si ++ "]")
    | .query nm =>
      Option.some ("typeof " ++ (match nm with
        | Option.some s => if s == "" then "unknown" else s
        | Option.none => "unknown"))
    | .predicate nm ty =>
      (formatTyOptFuel refs n ty).map fun st =>
        (match nm with
          | Option.some s => if s == "" then "this" else s
          | Option.none => "this") ++ " is " ++ st
    | .templateLiteral ts =>
      Option.some (match ts with
        | Option.some s => if s == "" then "string" else s
        | Option.none => "string")
    | .other ts =>
      Option.some (match ts with
        | Option.some s => if s == "" then "any" else s
        | Option.none => "any")

/-- Fuel-instrumented `formatTyOpt`. -/
def formatTyOptFuel (refs : List (String × String)) : Nat → OptTy → Option String
  | 0, _ => Option.none
  | n + 1, o =>
    match o with
    | .none => Option.some "any"
    | .some t => formatTyFuel refs n t

/-- Fuel-instrumented `formatTyList`. -/
def formatTyListFuel (refs : List (String × String)) : Nat → TyList → Option (List String)
  | 0, _ => Option.none
  | n + 1, ts =>
    match ts with
    | .nil => Option.some []
    | .cons h t => do
      let s ← formatTyFuel refs n h
      let rest ← formatTyListFuel refs n t
      pure (s :: rest)

/-- Fuel-instrumented `formatReflDecl`. -/
def formatReflDeclFuel (refs : List (String × String)) : Nat → OptDecl → Option String
  | 0, _ => Option.none
  | n + 1, d =>
    match d with
    | .none => Option.some "object"
    | .some (.mk sigs children) =>
      match sigs with
      | .cons (.mk params ret) _ => do
        let ps ← formatParamListFuel refs n params
        let rs ← formatTyOptFuel refs n ret
        pure ("(" ++ String.intercalate ", " ps ++ ") => " ++ rs)
      | .nil =>
        match children with
        | .cons _ _ =>
          (formatParamListFuel refs n children).map fun ps =>
            "\x7b " ++ String.intercalate "; " ps ++ " \x7d"
        | .nil => Option.some "object"

/-- Fuel-instrumented `formatParamList`. -/
def formatParamListFuel (refs : List (String × String)) : Nat → ParamList → Option (List String)
  | 0, _ => Option.none
  | n + 1, ps =>
    match ps with
    | .nil => Option.some []
    | .cons (.mk name opt ty) rest => do
      let st ← formatTyOptFuel refs n ty
      let rs ← formatParamListFuel refs n rest
      pure ((name ++ (if opt then "?" else "") ++ ": " ++ st) :: rs)

end

end Utils

/-! ## Generic `/g`-replacement driver

Each JavaScript `String.replace(regex, …)` with the `g` flag is modelled by a
step function that recognises the concrete pattern at the head of the
remaining text and returns the replacement together with the number of
consumed characters (always ≥ 1).  The driver emits unmatched characters
one at a time and resumes scanning after each match, exactly like the
JavaScript engine does with `lastIndex`. -/

def scanRepl (step : List Char → Option (List Char × Nat)) : Nat → List Char → List Char
  | 0, s => s
  | _, [] => []
  | n + 1, c :: cs =>
    match step (c :: cs) with
    | Option.some (repl, k) => repl ++ scanRepl step n ((c :: cs).drop k)
    | Option.none => c :: scanRepl step n cs

/-- Run a `/g` replacement over a string (fuel = length suffices since every
step consumes at least one character). -/
def runRepl (step : List Char → Option (List Char × Nat)) (s : String) : String :=
  ⟨scanRepl step (s.data.length + 1) s.data⟩

/-- Existence of a match anywhere (JavaScript `regex.test(s)`). -/
def scanTest (step : List Char → Option (List Char × Nat)) : List Char → Bool
  | [] => (step []).isSome
  | c :: cs => (step (c :: cs)).isSome || scanTest step cs

namespace Utils

/-- `sanitizeAttribute` (`src/utils.ts` lines 39–45):
`text.replace(/"/g, '\\"').replace(/\n/g, ' ').replace(/\r/g, '')`. -/
def sanitizeAttribute (text : String) : String :=
  ⟨text.data.flatMap fun c =>
    if c == '"' then ['\\', '"']
    else if c == '\n' then [' ']
    else if c == '\r' then []
    else [c]⟩

end Utils

namespace Components

/-! ## `src/components.ts` — Mintlify component generators -/

/-- `accordion` (`src/components.ts` lines 9–13). -/
def accordion (title content : String) : String :=
  "<Accordion title=\"" ++ title ++ "\">\n" ++ content ++ "\n</Accordion>"

/-- Two-space indentation of every line (`accordionGroup`'s
`content.split('\n').map(line => `  ${line}`).join('\n')`). -/
def indentTwo (content : String) : String :=
  joinLines ((splitLines content).map ("  " ++ ·))

/-- `accordionGroup` (`src/components.ts` lines 18–32): one `Accordion` per
entry (content indented), joined by blank lines, inside `<AccordionGroup>`. -/
def accordionGroup (accordions : List (String × String)) : String :=
  "<AccordionGroup>\n" ++
    String.intercalate "\n\n" (accordions.map fun acc => accordion acc.1 (indentTwo acc.2)) ++
    "\n</AccordionGroup>"

/-- `expandable` (lines 174–179) with the caller-side default
`defaultOpen = false`, so no `defaultOpen` attribute is emitted. -/
def expandable (title content : String) : String :=
  "<Expandable title=\"" ++ title ++ "\">\n" ++ content ++ "\n</Expandable>"

/-- `info` (lines 124–128) with the caller-side default empty title. -/
def info (content : String) : String := "<Info>\n" ++ content ++ "\n</Info>"

/-- `warning` (lines 133–137) with empty title. -/
def warning (content : String) : String := "<Warning>\n" ++ content ++ "\n</Warning>"

/-- `note` (lines 142–146) with empty title. -/
def note (content : String) : String := "<Note>\n" ++ content ++ "\n</Note>"

/-- `codeGroup` (lines 58–71): blocks are (title, code, language). -/
def codeGroup (codeBlocks : List (String × String × String)) : String :=
  "<CodeGroup>\n" ++
    String.intercalate "\n\n" (codeBlocks.map fun b =>
      "```" ++ b.2.2 ++ " " ++ b.1 ++ "\n" ++ b.2.1 ++ "\n```") ++
    "\n</CodeGroup>"

end Components

namespace ReflectionRenderer

/-! ## `src/reflection-renderer.ts` — data model of a TypeDoc reflection -/

/-- One part of a comment text (`{ kind?, text? }`). -/
structure CommentPart where
  kind : Option String
  text : Option String

/-- A block tag (`{ tag, content }`). -/
structure TagB where
  tag : String
  content : List CommentPart

/-- A TypeDoc comment: summary parts and block tags. -/
structure CommentR where
  summary : Option (List CommentPart)
  blockTags : Option (List TagB)

/-- A `ParameterReflection`: name, `flags.isOptional`, type, comment. -/
structure ParamR where
  name : String
  isOptional : Bool
  type : Utils.OptTy
  comment : Option CommentR

/-- A `SignatureReflection`. -/
structure SignatureR where
  parameters : List ParamR
  type : Utils.OptTy
  comment : Option CommentR

/-- A `DeclarationReflection` (only the fields read by the renderer). -/
inductive DeclR where
  | mk (kind : Nat) (name : String) (isOptional : Bool) (comment : Option CommentR)
      (children : List DeclR) (signatures : List SignatureR) (type : Utils.OptTy)
      (defaultValue : Option String)

/-- Reflection kind. -/
def DeclR.kind : DeclR → Nat | .mk k _ _ _ _ _ _ _ => k

/-- Reflection name. -/
def DeclR.name : DeclR → String | .mk _ n _ _ _ _ _ _ => n

/-- `flags.isOptional`. -/
def DeclR.isOptional : DeclR → Bool | .mk _ _ o _ _ _ _ _ => o

/-- Attached comment. -/
def DeclR.comment : DeclR → Option CommentR | .mk _ _ _ c _ _ _ _ => c

/-- Child reflections. -/
def DeclR.children : DeclR → List DeclR | .mk _ _ _ _ cs _ _ _ => cs

/-- Signatures. -/
def DeclR.signatures : DeclR → List SignatureR | .mk _ _ _ _ _ sigs _ _ => sigs

/-- Declared type. -/
def DeclR.type : DeclR → Utils.OptTy | .mk _ _ _ _ _ _ t _ => t

/-- Default value (enum members). -/
def DeclR.defaultValue : DeclR → Option String | .mk _ _ _ _ _ _ _ d => d

/-- Renderer state: the mutable fields of `MintlifyReflectionRenderer` that
the per-kind renderers read (`typeToUrlMap`, `currentPageUrl`,
`frontmatterDescription`, `indexPageUrl`). -/
structure RState where
  typeToUrlMap : List (String × String)
  currentPageUrl : Option String
  frontmatterDescription : Option String
  indexPageUrl : String

/-- `extractCommentText` (lines 747–761): map parts (backticking `code`
parts with non-empty text), join, trim. -/
def partText (p : CommentPart) : String :=
  let raw := match p.text with | Option.some t => t | Option.none => ""
  if p.kind == Option.some "code" && raw != "" then "`" ++ raw ++ "`" else raw

/-- `extractCommentText` on a possibly-absent content array. -/
def extractCommentText (content : Option (List CommentPart)) : String :=
  match content with
  | Option.none => ""
  | Option.some parts => jsTrim (String.join (parts.map partText))

/-- `formatTypeWithLinks` (lines 43–45): `formatType` with the renderer's
type-to-URL map. -/
def formatTypeWithLinks (st : RState) (t : Utils.OptTy) : String :=
  Utils.formatTyOpt st.typeToUrlMap t

/-- `type.replace(/\[([^\]]+)\]\([^)]+\)/g, '$1')` — drop markdown link
wrappers, keeping the link text. -/
def stripLinksStep : List Char → Option (List Char × Nat)
  | '[' :: rest =>
    let lbl := rest.takeWhile (· != ']')
    if lbl.length == 0 then Option.none
    else
      match rest.drop lbl.length with
      | ']' :: '(' :: rest2 =>
        let url := rest2.takeWhile (· != ')')
        if url.length == 0 then Option.none
        else
          match rest2.drop url.length with
          | ')' :: _ => Option.some (lbl, 1 + lbl.length + 2 + url.length + 1)
          | _ => Option.none
      | _ => Option.none
  | _ => Option.none

/-- Strip markdown links from a formatted type. -/
def stripLinks (s : String) : String := runRepl stripLinksStep s

/-- `replace(/\.$/, '')` : drop one trailing period. -/
def stripOnePeriod (s : String) : String :=
  if strEndsWith s "." then ⟨s.data.take (s.data.length - 1)⟩ else s

/-- `toLowerCase().split('<')[0]` of a type name. -/
def lowerBeforeGeneric (s : String) : String :=
  ⟨(jsLower s).data.takeWhile (· != '<')⟩

/-- `renderParameters` (lines 505–547): one `ParamField` per parameter. -/
def renderParameters (st : RState) (parameters : List ParamR) : String :=
  String.join (parameters.map fun param =>
    let name := param.name
    let type := formatTypeWithLinks st param.type
    let required := !param.isOptional
    let extracted := extractCommentText (param.comment.bind (·.summary))
    let description0 :=
      if extracted == "" then generateParameterDescription name type else extracted
    -- when the type carries links, mention it in the description
    let description :=
      if strIncludes type "[" && strIncludes type "](" then
        let typeName := stripLinks type
        if !strIncludes (jsLower description0) (lowerBeforeGeneric typeName) then
          description0 ++ " Type: " ++ type ++ "."
        else description0
      else description0
    let location := determineParameterLocation name
    let locationAttr :=
      if location == "path" then "path"
      else if location == "query" then "query"
      else if location == "header" then "header"
      else "body"
    let typeForAttribute := stripLinks type
    "<ParamField " ++ locationAttr ++ "=\"" ++ Utils.sanitizeAttribute name ++
      "\" type=\"" ++ Utils.sanitizeAttribute typeForAttribute ++ "\"" ++
      (if required then " required" else "") ++ ">\n" ++
      description ++ "\n</ParamField>\n\n")

/-- `renderReturnType` (lines 552–576). -/
def renderReturnType (st : RState) (signature : SignatureR) : String :=
  match signature.type with
  | .none => ""
  | .some t =>
    let type := Utils.formatTy st.typeToUrlMap t
    let returnsComment := extractCommentText
      (((signature.comment.bind (·.blockTags)).bind
          (List.find? (fun tg => tg.tag == "@returns"))).map (·.content))
    let description :=
      if returnsComment == "" then "Returns " ++ type ++ "."
      else returnsComment ++ " Returns " ++ type ++ "."
    let typeForAttribute := stripLinks type
    "<ResponseField name=\"returns\" type=\"" ++ Utils.sanitizeAttribute typeForAttribute ++
      "\">\n" ++ description ++ "\n</ResponseField>\n\n"

/-- `renderSignature` (lines 441–500). -/
def renderSignature (st : RState) (name : String) (signature : SignatureR)
    (isConstructor : Bool) (useExpandable : Bool) : String :=
  let params := signature.parameters
  -- plain type names inside the code block
  let paramList := String.intercalate ", " (params.map fun p =>
    p.name ++ (if p.isOptional then "?" else "") ++ ": " ++ Utils.formatTyOpt [] p.type)
  let returnType := match signature.type with
    | .some t => Utils.formatTy [] t
    | .none => "void"
  let sigText :=
    if isConstructor then "new " ++ name ++ "(" ++ paramList ++ ")"
    else name ++ "(" ++ paramList ++ "): " ++ returnType
  let header := "`" ++ sigText ++ "`\n\n"
  let descPart :=
    match signature.comment with
    | Option.some c =>
      let s := extractCommentText c.summary
      if s != "" then s ++ "\n\n" else ""
    | Option.none => ""
  let paramsPart :=
    if params.length > 0 then
      let paramsContent := renderParameters st params
      if useExpandable then Components.expandable "Parameters" (jsTrim paramsContent) ++ "\n\n"
      else "#### Parameters\n\n" ++ paramsContent ++ "\n"
    else ""
  let returnsPart :=
    match signature.type with
    | .some _ =>
      if !isConstructor then
        let returnsContent := renderReturnType st signature
        if useExpandable then Components.expandable "Returns" (jsTrim returnsContent) ++ "\n\n"
        else "#### Returns\n\n" ++ returnsContent ++ "\n"
      else ""
    | .none => ""
  header ++ descPart ++ paramsPart ++ returnsPart

/-- Anchor of a TOC item: `item.toLowerCase().replace(/\s+/g, '-')`. -/
def collapseSpacesToDash : Bool → List Char → List Char
  | _, [] => []
  | inRun, c :: cs =>
    if isJsSpace c then
      if inRun then collapseSpacesToDash true cs else '-' :: collapseSpacesToDash true cs
    else c :: collapseSpacesToDash false cs

/-- `renderToc` (lines 899–914). -/
def renderToc (items : List String) : String :=
  if items.length == 0 then ""
  else
    "<Toc>\n" ++
      String.intercalate "\n" (items.map fun item =>
        "- [" ++ item ++ "](#" ++ (⟨collapseSpacesToDash false (jsLower item).data⟩ : String) ++ ")") ++
      "\n</Toc>\n\n"

/-- `renderSummary` (lines 649–670): skip when equal (up to one trailing
period) to the frontmatter description. -/
def renderSummary (st : RState) (reflection : DeclR) : String :=
  match reflection.comment.bind (·.summary) with
  | Option.none => ""
  | Option.some parts =>
    let summary := extractCommentText (Option.some parts)
    if summary == "" then ""
    else
      match st.frontmatterDescription with
      | Option.some fm =>
        if stripOnePeriod (jsTrim summary) == stripOnePeriod (jsTrim fm) then ""
        else summary ++ "\n\n"
      | Option.none => summary ++ "\n\n"

/-- One step of the `@example` code-block extractor
`/```(\w+)?\n([\s\S]*?)```/g` : optional language word, then a newline, then
the lazily shortest body up to the next fence. -/
def codeBlockStep : List Char → Option ((Option String × String) × Nat)
  | '`' :: '`' :: '`' :: rest =>
    let lang := rest.takeWhile isWordChar
    (match rest.drop lang.length with
     | '\n' :: rest2 =>
       match indexOfSub ['`', '`', '`'] rest2 with
       | Option.some i =>
         Option.some ((if lang.length == 0 then Option.none else Option.some ⟨lang⟩,
            ⟨rest2.take i⟩), 3 + lang.length + 1 + i + 3)
       | Option.none => Option.none
     | _ => Option.none)
  | _ => Option.none

/-- All code blocks of an `@example` text, in order. -/
def codeBlocksOf : Nat → List Char → List (Option String × String)
  | 0, _ => []
  | _, [] => []
  | n + 1, c :: cs =>
    match codeBlockStep (c :: cs) with
    | Option.some (blk, k) => blk :: codeBlocksOf n ((c :: cs).drop k)
    | Option.none => codeBlocksOf n cs

/-- `renderComments` (lines 675–742): callouts for `@remarks` / `@warning` /
`@note`, code examples for `@example`. -/
def renderComments (comment : Option CommentR) : String :=
  match comment with
  | Option.none => ""
  | Option.some c =>
    match c.blockTags with
    | Option.none => ""
    | Option.some tags =>
      let step := tags.foldl
        (fun (acc : String × List (String × String)) tg =>
          let (content, examples) := acc
          if tg.tag == "@remarks" then
            let text := extractCommentText (Option.some tg.content)
            (if text != "" then content ++ Components.info text ++ "\n\n" else content, examples)
          else if tg.tag == "@warning" then
            let text := extractCommentText (Option.some tg.content)
            (if text != "" then content ++ Components.warning text ++ "\n\n" else content, examples)
          else if tg.tag == "@note" then
            let text := extractCommentText (Option.some tg.content)
            (if text != "" then content ++ Components.note text ++ "\n\n" else content, examples)
          else if tg.tag == "@example" then
            let exampleText := extractCommentText (Option.some tg.content)
            if exampleText != "" then
              let blocks := (codeBlocksOf (exampleText.data.length + 1) exampleText.data).map
                fun b => (match b.1 with | Option.some l => l | Option.none => "typescript",
                  jsTrim b.2)
              let examples' := examples ++ blocks
              if examples'.length == 0 && jsTrim exampleText != "" then
                (content, examples' ++ [("typescript", jsTrim exampleText)])
              else (content, examples')
            else (content, examples)
          else (content, examples))
        ("", [])
      let (content, examples) := step
      if examples.length > 0 then
        if examples.length > 1 then
          content ++ Components.codeGroup (examples.map fun ex =>
            ((match ex.1.data with
              | [] => ""
              | ch :: rest => ⟨ch.toUpper :: rest⟩), ex.2, ex.1)) ++ "\n\n"
        else
          match examples with
          | ex :: _ => content ++ "```" ++ ex.1 ++ "\n" ++ ex.2 ++ "\n```\n\n"
          | [] => content
      else content

/-- `renderProperty` (lines 607–627): class property as bold name, type and
description. -/
def renderProperty (st : RState) (property : DeclR) : String :=
  let name := property.name
  let type := formatTypeWithLinks st property.type
  let extracted := extractCommentText (property.comment.bind (·.summary))
  let description := if extracted == "" then "The " ++ name ++ " property." else extracted
  "**" ++ name ++ "**\n\n" ++
    (if strIncludes type "[" && strIncludes type "](" then
      "**Type:** " ++ type ++ "\n\n"
    else "**Type:** `" ++ type ++ "`\n\n") ++
    (if description != "" then description ++ "\n\n" else "")

/-- `renderInterfaceProperty` (lines 581–602): bold name (instead of an H5
heading) plus a `ResponseField`. -/
def renderInterfaceProperty (st : RState) (property : DeclR) : String :=
  let name := property.name
  let type := formatTypeWithLinks st property.type
  let required := !property.isOptional
  let extracted := extractCommentText (property.comment.bind (·.summary))
  let description0 := if extracted == "" then "The " ++ name ++ " property." else extracted
  let typeName := stripLinks type
  let description :=
    if !strIncludes (jsLower description0) (lowerBeforeGeneric typeName) then
      description0 ++ " Type: " ++ type ++ "."
    else description0
  let typeForAttribute := stripLinks type
  "**" ++ name ++ "**\n\n" ++
    "<ResponseField name=\"" ++ Utils.sanitizeAttribute name ++ "\" type=\"" ++
    Utils.sanitizeAttribute typeForAttribute ++ "\"" ++
    (if required then " required" else "") ++ ">\n" ++
    description ++ "\n</ResponseField>\n\n"

/-- `renderEnum` (lines 378–409): members as a three-column table whose
description cell falls back to the em-dash placeholder. -/
def renderEnum (st : RState) (reflection : DeclR) : String :=
  let base := renderSummary st reflection ++ renderComments reflection.comment
  let members := reflection.children.filter (fun child => child.kind == 16)
  if members.length > 0 then
    base ++ renderToc ["Members"] ++ "### Members\n\n" ++
      "| Name | Value | Description |\n" ++
      "|------|-------|-------------|\n" ++
      String.join (members.map fun member =>
        let name := member.name
        let value := match member.defaultValue with
          | Option.some v => if v == "" then name else v
          | Option.none => name
        let extracted := extractCommentText (member.comment.bind (·.summary))
        let description := if extracted == "" then "—" else extracted
        "| `" ++ name ++ "` | `" ++ value ++ "` | " ++ description ++ " |\n") ++
      "\n"
  else base

/-- `renderClass` (lines 190–300): constructor, properties (accordion group
above five), methods (accordion group above three). -/
def renderClass (st : RState) (reflection : DeclR) : String :=
  let base := renderSummary st reflection ++ renderComments reflection.comment
  let constructors := reflection.children.filter (fun child => child.kind == 512)
  let properties := reflection.children.filter (fun child => child.kind == 1024)
  let methods := reflection.children.filter (fun child => child.kind == 2048)
  let tocItems :=
    (if constructors.length > 0 then ["Constructor"] else []) ++
    (if properties.length > 0 then ["Properties"] else []) ++
    (if methods.length > 0 then ["Methods"] else [])
  let tocPart := if tocItems.length > 0 then renderToc tocItems else ""
  let ctorPart :=
    if constructors.length > 0 then
      "### Constructor\n\n" ++
        String.join (constructors.map fun ctor =>
          match ctor.signatures with
          | sig :: _ =>
            if sig.parameters.length > 0 then renderSignature st ctor.name sig true true
            else renderSignature st ctor.name sig true false
          | [] => "") ++
        "\n"
    else ""
  let propsPart :=
    if properties.length > 0 then
      "### Properties\n\n" ++
        (if properties.length > 5 then
          Components.accordionGroup (properties.map fun prop =>
            (prop.name, jsTrim (renderProperty st prop))) ++ "\n\n"
        else
          String.join (properties.map fun prop => renderProperty st prop) ++ "\n")
    else ""
  let methodsPart :=
    if methods.length > 0 then
      "### Methods\n\n" ++
        (if methods.length > 3 then
          Components.accordionGroup
            ((methods.map fun method =>
              match method.signatures with
              | sig :: _ =>
                let params := sig.parameters
                let paramList := String.intercalate ", " (params.map fun p =>
                  p.name ++ (if p.isOptional then "?" else "") ++ ": " ++
                    formatTypeWithLinks st p.type)
                let returnType := match sig.type with
                  | .some t => Utils.formatTy st.typeToUrlMap t
                  | .none => "void"
                let title := method.name ++ "(" ++ paramList ++ "): " ++ returnType
                (title, jsTrim (renderSignature st method.name sig false true))
              | [] => (method.name, "")).filter fun acc => acc.2 != "") ++ "\n\n"
        else
          String.join (methods.map fun method =>
            match method.signatures with
            | sig :: _ => renderSignature st method.name sig false true
            | [] => "") ++ "\n")
    else ""
  base ++ tocPart ++ ctorPart ++ propsPart ++ methodsPart

/-- `renderInterface` (lines 305–337). -/
def renderInterface (st : RState) (reflection : DeclR) : String :=
  let base := renderSummary st reflection ++ renderComments reflection.comment
  let properties := reflection.children.filter (fun child => child.kind == 1024)
  if properties.length > 0 then
    base ++ renderToc ["Properties"] ++
      (if properties.length > 5 then
        Components.accordionGroup (properties.map fun prop =>
          (prop.name, jsTrim (renderInterfaceProperty st prop))) ++ "\n\n"
      else
        String.join (properties.map fun prop => renderInterfaceProperty st prop))
  else base

end ReflectionRenderer

namespace Theme

/-! ## `src/theme.ts` — URL generation and the reference map -/

mutual

/-- A reflection node as traversed by `getUrls` (`src/theme.ts`): kind,
name, children. -/
inductive Refl where
  | mk (kind : Nat) (name : String) (children : ReflList)

/-- List of reflections. -/
inductive ReflList where
  | nil
  | cons (head : Refl) (tail : ReflList)

end

/-- Reflection kind. -/
def Refl.kind : Refl → Nat | .mk k _ _ => k

/-- Reflection name. -/
def Refl.name : Refl → String | .mk _ n _ => n

/-- Children. -/
def Refl.children : Refl → ReflList | .mk _ _ cs => cs

/-- The `kindMap` of `getUrlForReflection` (`src/theme.ts` lines 443–455)
with its `|| 'modules'` default. -/
def kindFolder (kind : Nat) : String :=
  if kind == 128 then "classes"
  else if kind == 256 then "interfaces"
  else if kind == 64 then "functions"
  else if kind == 8 then "enums"
  else if kind == 2097152 then "type-aliases"
  else "modules"

/-- `getUrlForReflection` (`src/theme.ts` lines 443–455): kind-specific
folder (unless `flattenOutputFiles`) plus the reflection's name plus the
file extension. -/
def getUrlForReflection (flattenOutputFiles : Bool) (fileExtension : String)
    (r : Refl) : String :=
  let folder := kindFolder r.kind
  let fileName := if flattenOutputFiles then r.name else folder ++ "/" ++ r.name
  fileName ++ fileExtension

/-- `membersWithOwnFile?.includes(s)` (undefined is falsy). -/
def mwIncludes (mw : Option (List String)) (s : String) : Bool :=
  match mw with
  | Option.some l => l.contains s
  | Option.none => false

mutual

/-- `visitReflection` (`src/theme.ts` lines 460–486): collect the
reflections that get their own file, self before children. -/
def visitReflection (mw : Option (List String)) : Refl → List Refl
  | .mk k n cs =>
    (if k == 128 && mwIncludes mw "Class" then [Refl.mk k n cs]
     else if k == 256 && mwIncludes mw "Interface" then [Refl.mk k n cs]
     else if k == 64 && mwIncludes mw "Function" then [Refl.mk k n cs]
     else if k == 8 && mwIncludes mw "Enum" then [Refl.mk k n cs]
     else if k == 2097152 && mwIncludes mw "TypeAlias" then [Refl.mk k n cs]
     else []) ++ visitReflListAll mw cs

/-- Visit every reflection of a list. -/
def visitReflListAll (mw : Option (List String)) : ReflList → List Refl
  | .nil => []
  | .cons h t => visitReflection mw h ++ visitReflListAll mw t

end

/-- The reference-map construction of `getUrls` (`src/theme.ts` lines
457–501): visit the project's children, compute each reflection's URL, and
record `name → api/…`-prefixed URL (extension stripped) in `typeToUrlMap`. -/
def buildTypeToUrlMap (flattenOutputFiles : Bool) (fileExtension : String)
    (mw : Option (List String)) (projectChildren : ReflList) : List (String × String) :=
  let reflectionsToDocument := visitReflListAll mw projectChildren
  reflectionsToDocument.foldl
    (fun m r =>
      let url := getUrlForReflection flattenOutputFiles fileExtension r
      let cleanUrl := stripSuffixStr url ".mdx"
      let urlWithApi := if strStartsWith cleanUrl "api/" then cleanUrl else "api/" ++ cleanUrl
      mapSet m r.name urlWithApi)
    []

/-! ## `src/theme.ts` — `flattenHeadings` (lines 1030–1038) -/

/-- `replace(/^##### (.+)$/gm, '**$1**')` on one line: the line starts with
`##### ` and has at least one further character. -/
def flattenLine5 (line : String) : String :=
  if strStartsWith line "##### " && decide (line.data.length > 6) then
    "**" ++ (⟨line.data.drop 6⟩ : String) ++ "**"
  else line

/-- `replace(/^###### (.+)$/gm, '**$1**')` on one line. -/
def flattenLine6 (line : String) : String :=
  if strStartsWith line "###### " && decide (line.data.length > 7) then
    "**" ++ (⟨line.data.drop 7⟩ : String) ++ "**"
  else line

/-- `flattenHeadings`: demote H5 then H6 headings to bold text. -/
def flattenHeadings (content : String) : String :=
  let pass5 := joinLines ((splitLines content).map flattenLine5)
  joinLines ((splitLines pass5).map flattenLine6)

/-- A line matching the H5 pattern `^##### (.+)$`. -/
def matchesH5 (line : String) : Bool :=
  strStartsWith line "##### " && decide (line.data.length > 6)

/-- A line matching the H6 pattern `^###### (.+)$`. -/
def matchesH6 (line : String) : Bool :=
  strStartsWith line "###### " && decide (line.data.length > 7)

/-- A line that is an H5 or H6 heading with non-empty text. -/
def isDeepHeading (line : String) : Bool := matchesH5 line || matchesH6 line

/-! ## `src/theme.ts` — `addTypeLinksToIndexPage` (lines 526–614) -/

/-- Stable insertion of a name into a length-descending sorted list
(`sort((a, b) => b.length - a.length)`). -/
def insertByLen (x : String) : List String → List String
  | [] => [x]
  | y :: ys => if y.data.length ≤ x.data.length then x :: y :: ys else y :: insertByLen x ys

/-- Stable sort by length, longest first. -/
def sortByLenDesc : List String → List String
  | [] => []
  | x :: xs => insertByLen x (sortByLenDesc xs)

/-- A fence-marker line: `line.trim().startsWith('```')`. -/
def fenceLine (line : String) : Bool := strStartsWith (jsTrim line) "```"

/-- Match of `/\[[^\]]+\]\([^)]+\)\s*`\([^`]+\)/` at the head of the text
(a markdown link followed by an inline-code parameter list). -/
def fnSigAt : List Char → Bool
  | '[' :: rest =>
    let lbl := rest.takeWhile (· != ']')
    if lbl.length == 0 then false
    else
      match rest.drop lbl.length with
      | ']' :: '(' :: rest2 =>
        let url := rest2.takeWhile (· != ')')
        if url.length == 0 then false
        else
          match rest2.drop url.length with
          | ')' :: rest3 =>
            let ws := rest3.takeWhile isJsSpace
            (match rest3.drop ws.length with
             | '`' :: '(' :: rest4 =>
               let run := rest4.takeWhile (· != '`')
               decide (run.length ≥ 2) && (run.drop 1).contains ')'
             | _ => false)
          | _ => false
      | _ => false
  | _ => false

/-- `line.match(/\[[^\]]+\]\([^)]+\)\s*`\([^`]+\)/)` — search anywhere. -/
def hasFnSig : List Char → Bool
  | [] => false
  | c :: cs => fnSigAt (c :: cs) || hasFnSig cs

/-- Search for the `<` of `` `([^`]*?<)(T)(>[^`]*?)` `` after an opening
backtick: the lazy first group grows until `<T>` is found, the third group
runs to the first closing backtick.  `before` accumulates the group-1 text
(without its final `<`). -/
def genericFindLt (tn url : List Char) (before : List Char) :
    List Char → Option (List Char × Nat)
  | [] => Option.none
  | '`' :: _ => Option.none
  | '<' :: rest2 =>
    (if tn.isPrefixOf rest2 then
      match rest2.drop tn.length with
      | '>' :: rest3 =>
        let after := rest3.takeWhile (· != '`')
        (match rest3.drop after.length with
         | '`' :: _ =>
           -- `escapedBefore`: `<` → `&lt;`; `escapedAfter`: `>` → `&gt;`
           let escapedBefore := (before ++ ['<']).flatMap fun c =>
             if c == '<' then ['&', 'l', 't', ';'] else [c]
           let escapedAfter := ('>' :: after).flatMap fun c =>
             if c == '>' then ['&', 'g', 't', ';'] else [c]
           Option.some (escapedBefore ++ '[' :: tn ++ ']' :: '(' :: url ++ [')'] ++ escapedAfter,
             1 + before.length + 1 + tn.length + 1 + after.length + 1)
         | _ => genericFindLt tn url (before ++ ['<']) rest2)
      | _ => genericFindLt tn url (before ++ ['<']) rest2
    else genericFindLt tn url (before ++ ['<']) rest2)
  | c :: rest2 => genericFindLt tn url (before ++ [c]) rest2

/-- Step of `` new RegExp(`\`([^\`]*?<)(${typeName})(>[^\`]*?)\``, 'g') ``. -/
def genericStep (tn url : List Char) : List Char → Option (List Char × Nat)
  | '`' :: rest => genericFindLt tn url [] rest
  | _ => Option.none

/-- Step of `` new RegExp(`(^|\\s)\`(${typeName})\`(\\s|$|[.,;:)>])`, 'g') ``;
the flag says whether we are at position 0 of the line. -/
def standaloneStep (tn url : List Char) (atStart : Bool) (s : List Char) :
    Option (List Char × Nat) :=
  let tryAt : List Char → Nat → List Char → Option (List Char × Nat) :=
    fun bef befLen rest =>
      match rest with
      | '`' :: r2 =>
        if tn.isPrefixOf r2 then
          match r2.drop tn.length with
          | '`' :: r3 =>
            let link := bef ++ '[' :: tn ++ ']' :: '(' :: url ++ [')']
            (match r3 with
             | [] => Option.some (link, befLen + 1 + tn.length + 1)
             | c :: _ =>
               if isJsSpace c || c == '.' || c == ',' || c == ';' || c == ':' ||
                   c == ')' || c == '>' then
                 Option.some (link ++ [c], befLen + 1 + tn.length + 1 + 1)
               else Option.none)
          | _ => Option.none
        else Option.none
      | _ => Option.none
  let wsAlt : Option (List Char × Nat) :=
    match s with
    | c :: rest => if isJsSpace c then tryAt [c] 1 rest else Option.none
    | [] => Option.none
  if atStart then
    match tryAt [] 0 s with
    | Option.some r => Option.some r
    | Option.none => wsAlt
  else wsAlt

/-- `/g` driver that tracks whether the scan is at position 0 (for the `^`
alternative of a pattern without the `m` flag, applied to a single line). -/
def scanReplStart (step : Bool → List Char → Option (List Char × Nat)) :
    Nat → Bool → List Char → List Char
  | 0, _, s => s
  | _, _, [] => []
  | n + 1, atStart, c :: cs =>
    match step atStart (c :: cs) with
    | Option.some (repl, k) => repl ++ scanReplStart step n false ((c :: cs).drop k)
    | Option.none => c :: scanReplStart step n false cs

/-- Both in-line rewrites of `addTypeLinksToIndexPage` for one type name:
the generic-argument pattern, then the standalone-name pattern
(lines 576–591). -/
def processLine (tn url : String) (line : String) : String :=
  let l1 : String := ⟨scanRepl (genericStep tn.data url.data) (line.data.length + 1) line.data⟩
  ⟨scanReplStart (standaloneStep tn.data url.data) (l1.data.length + 1) true l1.data⟩

/-- The per-line pass of `addTypeLinksToIndexPage` (lines 550–595): fence
markers toggle `inCodeBlock` and are kept; lines inside a fence are kept;
lines matching the function-signature pattern are kept; other lines get the
two in-line rewrites. -/
def linePhase (tn url : String) : Bool → List String → List String
  | _, [] => []
  | inCode, line :: rest =>
    if fenceLine line then line :: linePhase tn url (!inCode) rest
    else if inCode then line :: linePhase tn url inCode rest
    else if hasFnSig line.data then line :: linePhase tn url inCode rest
    else processLine tn url line :: linePhase tn url inCode rest

/-- Step of `` new RegExp(`(\\*\\*\\w+\\*\\*|\\w+\\??): \`(${typeName})\``, 'g') ``
(pattern 4, lines 600–610), with the callback's `result.indexOf(match)`
check against the full string `orig` being rewritten. -/
def paramTypeStep (tn url orig : List Char) (s : List Char) :
    Option (List Char × Nat) :=
  let group1 : Option (List Char × Nat) :=
    match s with
    | '*' :: '*' :: rest =>
      let w := rest.takeWhile isWordChar
      if w.length == 0 then Option.none
      else
        (match rest.drop w.length with
         | '*' :: '*' :: _ => Option.some ('*' :: '*' :: w ++ ['*', '*'], w.length + 4)
         | _ => Option.none)
    | _ =>
      let w := s.takeWhile isWordChar
      if w.length == 0 then Option.none
      else
        match s.drop w.length with
        | '?' :: _ => Option.some (w ++ ['?'], w.length + 1)
        | _ => Option.some (w, w.length)
  match group1 with
  | Option.none => Option.none
  | Option.some (g1, g1len) =>
    match s.drop g1len with
    | ':' :: ' ' :: '`' :: r2 =>
      if tn.isPrefixOf r2 then
        match r2.drop tn.length with
        | '`' :: _ =>
          let matchedLen := g1len + 3 + tn.length + 1
          let matchedText := s.take matchedLen
          let idx := (indexOfSub matchedText orig).getD 0
          let beforeMatch := orig.take idx
          if containsSub ('[' :: tn ++ [']']) beforeMatch then
            Option.some (matchedText, matchedLen)  -- already linked: keep the match
          else
            Option.some (g1 ++ ':' :: ' ' :: '[' :: '`' :: tn ++ '`' :: ']' :: '(' :: url ++ [')'],
              matchedLen)
        | _ => Option.none
      else Option.none
    | _ => Option.none

/-- Pattern 4 applied to the whole document. -/
def paramTypePass (tn url : String) (content : String) : String :=
  ⟨scanRepl (paramTypeStep tn.data url.data content.data)
    (content.data.length + 1) content.data⟩

/-- `addTypeLinksToIndexPage` (lines 526–614): for each known type name
(longest first), run the per-line pass, then pattern 4 on the whole text. -/
def addTypeLinksToIndexPage (typeToUrlMap : List (String × String))
    (content : String) : String :=
  if typeToUrlMap.length == 0 then content
  else
    (sortByLenDesc (typeToUrlMap.map (·.1))).foldl
      (fun result typeName =>
        let url := (lookupMap typeToUrlMap typeName).getD ""
        let cleanUrl := stripSuffixStr url ".mdx"
        let urlWithApi := if strStartsWith cleanUrl "api/" then cleanUrl else "api/" ++ cleanUrl
        let absoluteUrl := "/" ++ urlWithApi
        let processed := joinLines (linePhase typeName absoluteUrl false (splitLines result))
        paramTypePass typeName absoluteUrl processed)
      content

end Theme

namespace Renderer

/-! ## `src/renderer.js` — `beautifyStructure` (lines 980–1264)

Every `content.replace(regex, …)` of the source becomes one `bsNN` pass
below, in source order; the original pattern is quoted in each doc comment.
The scanners follow the JavaScript matching semantics of the concrete
pattern (leftmost match, greedy/lazy quantifier behaviour, `/g`
continuation). -/

/-- First match of `/<([A-Z]\w+)([^>]*?)(?:\s*\/>|>)/` anywhere in a line:
the tag name, when a `<` followed by an uppercase letter, a word character
and an eventual `>` occurs (line 993). -/
def findOpenTagName : List Char → Option String
  | '<' :: rest =>
    (match rest with
     | u :: w :: rest2 =>
       if isUpperAscii u && isWordChar w && rest2.contains '>' then
         Option.some ⟨u :: w :: rest2.takeWhile isWordChar⟩
       else findOpenTagName rest
     | _ => Option.none)
  | _ :: cs => findOpenTagName cs
  | [] => Option.none

/-- First match of `/<\/([A-Z]\w+)>/` anywhere in a line (line 994). -/
def findCloseTagName : List Char → Option String
  | '<' :: '/' :: u :: w :: rest2 =>
    if isUpperAscii u && isWordChar w then
      let run := rest2.takeWhile isWordChar
      match rest2.drop run.length with
      | '>' :: _ => Option.some ⟨u :: w :: run⟩
      | _ => findCloseTagName ('/' :: u :: w :: rest2)
    else findCloseTagName ('/' :: u :: w :: rest2)
  | _ :: cs => findCloseTagName cs
  | [] => Option.none

/-- Drop stack entries down to and including the first occurrence of a tag
(`tagStack.splice(tagIndex)` with the top of the stack at the head). -/
def dropThrough : List String → String → List String
  | [], _ => []
  | t :: ts, tag => if t == tag then ts else dropThrough ts tag

/-- One line of the tag-balancing scan (lines 991–1028): returns the new
stack and whether the line is kept.  Opening lines push unless the line
contains `/>`; a closing line pops on a top match, truncates the stack on a
deeper match, is kept without effect when it is an orphaned `</CodeGroup>`,
and is dropped when it is any other orphaned closing tag. -/
def balStep (stack : List String) (line : String) : List String × Bool :=
  match findOpenTagName line.data with
  | Option.some tagName =>
    let isSelfClosing := strIncludes line "/>"
    (if isSelfClosing then stack else tagName :: stack, true)
  | Option.none =>
    match findCloseTagName line.data with
    | Option.some tagName =>
      (match stack with
       | top :: rest =>
         if top == tagName then (rest, true)
         else if stack.contains tagName then (dropThrough stack tagName, true)
         else if tagName == "CodeGroup" then (stack, true)
         else (stack, false)
       | [] =>
         if tagName == "CodeGroup" then ([], true) else ([], false))
    | Option.none => (stack, true)

/-- The tag-balancing scan over a line list, from a given stack. -/
def balanceAux (stack : List String) : List String → List String
  | [] => []
  | line :: rest =>
    let s := balStep stack line
    if s.2 then line :: balanceAux s.1 rest else balanceAux s.1 rest

/-- The tag-balancing pass, started (as in the source) from an empty stack. -/
def balancePass (lines : List String) : List String := balanceAux [] lines

/-- Number of lines dropped by the scan (orphaned non-`CodeGroup` closing
tags). -/
def balanceDropsAux (stack : List String) : List String → Nat
  | [] => 0
  | line :: rest =>
    let s := balStep stack line
    (if s.2 then 0 else 1) + balanceDropsAux s.1 rest

/-- Orphan-close drops from the empty stack. -/
def balanceDrops (lines : List String) : Nat := balanceDropsAux [] lines

/-- The stack left over after scanning (the unclosed opening tags). -/
def balanceStackAux (stack : List String) : List String → List String
  | [] => stack
  | line :: rest => balanceStackAux (balStep stack line).1 rest

/-- Unclosed opening tags of a document, top of stack first. -/
def unmatchedOpens (content : String) : List String :=
  balanceStackAux [] (splitLines content)

/-- The tag-balancing pass on a whole document (split, scan, join) —
lines 987–1030. -/
def bs03_balance (content : String) : String :=
  joinLines (balancePass (splitLines content))

/-- Literal-prefix parser: remaining text after a literal. -/
def dropLit (lit : List Char) (s : List Char) : Option (List Char) :=
  if lit.isPrefixOf s then Option.some (s.drop lit.length) else Option.none

/-- Whitespace run containing at least one newline (`\s*\n\s*`): length of
the maximal whitespace run when it contains `'\n'`. -/
def wsRunWithNl (s : List Char) : Option Nat :=
  let run := s.takeWhile isJsSpace
  if run.contains '\n' then Option.some run.length else Option.none

/-- `replace(/`Promise\s*\n\s*<(\w+)>\s*\n\s*`/g, '`Promise<$1>`')`
(line 982). -/
def bs01Step : List Char → Option (List Char × Nat) := fun s =>
  match dropLit "`Promise".data s with
  | Option.none => Option.none
  | Option.some s1 =>
    match wsRunWithNl s1 with
    | Option.none => Option.none
    | Option.some n1 =>
      match s1.drop n1 with
      | '<' :: s3 =>
        let w := s3.takeWhile isWordChar
        if w.length == 0 then Option.none
        else
          (match s3.drop w.length with
           | '>' :: s4 =>
             (match wsRunWithNl s4 with
              | Option.some n2 =>
                (match s4.drop n2 with
                 | '`' :: _ =>
                   Option.some (("`Promise<" ++ (⟨w⟩ : String) ++ ">`").data,
                     8 + n1 + 1 + w.length + 1 + n2 + 1)
                 | _ => Option.none)
              | Option.none => Option.none)
           | _ => Option.none)
      | _ => Option.none

/-- `replace(/`([A-Z]\w+)\s*\n\s*<(\w+)>\s*\n\s*`/g, '`$1<$2>`')`
(line 983). -/
def bs02Step : List Char → Option (List Char × Nat)
  | '`' :: u :: rest =>
    if isUpperAscii u then
      let nm := rest.takeWhile isWordChar
      if nm.length == 0 then Option.none
      else
        match wsRunWithNl (rest.drop nm.length) with
        | Option.none => Option.none
        | Option.some n1 =>
          (match (rest.drop nm.length).drop n1 with
           | '<' :: s3 =>
             let w := s3.takeWhile isWordChar
             if w.length == 0 then Option.none
             else
               (match s3.drop w.length with
                | '>' :: s4 =>
                  (match wsRunWithNl s4 with
                   | Option.some n2 =>
                     (match s4.drop n2 with
                      | '`' :: _ =>
                        Option.some (('`' :: u :: nm) ++ '<' :: w ++ ['>', '`'],
                          2 + nm.length + n1 + 1 + w.length + 1 + n2 + 1)
                      | _ => Option.none)
                   | Option.none => Option.none)
                | _ => Option.none)
           | _ => Option.none)
    else Option.none
  | _ => Option.none

/-- `replace(/\n{4,}/g, '\n\n\n')` (line 1033). -/
def bs04Step (s : List Char) : Option (List Char × Nat) :=
  let run := s.takeWhile (· == '\n')
  if run.length ≥ 4 then Option.some (['\n', '\n', '\n'], run.length) else Option.none

/-- Parse `<[A-Z]\w+[^>]*>` at the head: the full tag text and its length. -/
def parseGenericOpenAt : List Char → Option (List Char × Nat)
  | '<' :: u :: w :: rest2 =>
    if isUpperAscii u && isWordChar w then
      match indexOfSub ['>'] rest2 with
      | Option.some i =>
        Option.some ('<' :: u :: w :: rest2.take i ++ ['>'], 3 + i + 1)
      | Option.none => Option.none
    else Option.none
  | _ => Option.none

/-- Parse `<\/[A-Z]\w+>` at the head: full tag text and length. -/
def parseCloseTagAt : List Char → Option (List Char × Nat)
  | '<' :: '/' :: u :: w :: rest2 =>
    if isUpperAscii u && isWordChar w then
      let run := rest2.takeWhile isWordChar
      match rest2.drop run.length with
      | '>' :: _ =>
        Option.some ('<' :: '/' :: u :: w :: run ++ ['>'], 4 + run.length + 1)
      | _ => Option.none
    else Option.none
  | _ => Option.none

/-- `replace(/\n\n\n(<[A-Z]\w+[^>]*>)/g, '\n\n$1')` (line 1036). -/
def bs05Step : List Char → Option (List Char × Nat)
  | '\n' :: '\n' :: '\n' :: rest =>
    (match parseGenericOpenAt rest with
     | Option.some (tag, k) => Option.some ('\n' :: '\n' :: tag, 3 + k)
     | Option.none => Option.none)
  | _ => Option.none

/-- `replace(/(<\/[A-Z]\w+>)\n\n\n/g, '$1\n\n')` (line 1037). -/
def bs06Step (s : List Char) : Option (List Char × Nat) :=
  match parseCloseTagAt s with
  | Option.some (tag, k) =>
    (match dropLit ['\n', '\n', '\n'] (s.drop k) with
     | Option.some _ => Option.some (tag ++ ['\n', '\n'], k + 3)
     | Option.none => Option.none)
  | Option.none => Option.none

/-- `replace(/(<\/[A-Z]\w+>)(\n)([^\n])/g, '$1\n\n$3')` (line 1040). -/
def bs07Step (s : List Char) : Option (List Char × Nat) :=
  match parseCloseTagAt s with
  | Option.some (tag, k) =>
    (match s.drop k with
     | '\n' :: c :: _ =>
       if c != '\n' then Option.some (tag ++ ['\n', '\n', c], k + 2) else Option.none
     | _ => Option.none)
  | Option.none => Option.none

/-- `replace(/### \w+\n\n\n/g, '')` (line 1043). -/
def bs08Step : List Char → Option (List Char × Nat)
  | '#' :: '#' :: '#' :: ' ' :: rest =>
    let w := rest.takeWhile isWordChar
    if w.length == 0 then Option.none
    else
      (match dropLit ['\n', '\n', '\n'] (rest.drop w.length) with
       | Option.some _ => Option.some ([], 4 + w.length + 3)
       | Option.none => Option.none)
  | _ => Option.none

/-- `replace(/[ \t]+$/gm, '')` (line 1046): per-line trailing blank strip. -/
def bs09_trimTrailing (content : String) : String :=
  joinLines ((splitLines content).map fun l =>
    ⟨(l.data.reverse.dropWhile (fun c => c == ' ' || c == '\t')).reverse⟩)

/-- `replace(/#\./g, '')` (line 1064). -/
def bs15Step : List Char → Option (List Char × Nat)
  | '#' :: '.' :: _ => Option.some ([], 2)
  | _ => Option.none

/-- `replace(/^#\.\n\n/gm, '')` (line 1066). -/
def bs16Step (atLS : Bool) : List Char → Option (List Char × Nat)
  | '#' :: '.' :: '\n' :: '\n' :: _ => if atLS then Option.some ([], 4) else Option.none
  | _ => Option.none

/-- `replace(/^#\.$/gm, '')` (line 1067). -/
def bs17Step (atLS : Bool) : List Char → Option (List Char × Nat)
  | '#' :: '.' :: rest =>
    if atLS && (rest.head? == Option.some '\n' || rest.isEmpty) then Option.some ([], 2)
    else Option.none
  | _ => Option.none

/-- `replace(/\n#\.\n\n/g, '\n\n')` (line 1068). -/
def bs18Step : List Char → Option (List Char × Nat)
  | '\n' :: '#' :: '.' :: '\n' :: '\n' :: _ => Option.some (['\n', '\n'], 5)
  | _ => Option.none

/-- `replace(/\n#\.$/gm, '')` (line 1069). -/
def bs19Step : List Char → Option (List Char × Nat)
  | '\n' :: '#' :: '.' :: rest =>
    if rest.head? == Option.some '\n' || rest.isEmpty then Option.some ([], 3) else Option.none
  | _ => Option.none

/-- `replace(/\n#\.\n/g, '\n')` (line 1070). -/
def bs20Step : List Char → Option (List Char × Nat)
  | '\n' :: '#' :: '.' :: '\n' :: _ => Option.some (['\n'], 4)
  | _ => Option.none

/-- `content.split('\n').filter(line => line.trim() !== '#.').join('\n')`
(line 1072). -/
def bs21_filterHashDot (content : String) : String :=
  joinLines ((splitLines content).filter fun l => jsTrim l != "#.")

/-- `replace(/^#+\n\n/gm, '')` (line 1076). -/
def bs22Step (atLS : Bool) (s : List Char) : Option (List Char × Nat) :=
  if atLS then
    let run := s.takeWhile (· == '#')
    if run.length ≥ 1 then
      match dropLit ['\n', '\n'] (s.drop run.length) with
      | Option.some _ => Option.some ([], run.length + 2)
      | Option.none => Option.none
    else Option.none
  else Option.none

/-- `replace(/^#+$/gm, '')` (line 1077). -/
def bs23Step (atLS : Bool) (s : List Char) : Option (List Char × Nat) :=
  if atLS then
    let run := s.takeWhile (· == '#')
    if run.length ≥ 1 &&
        ((s.drop run.length).head? == Option.some '\n' || (s.drop run.length).isEmpty) then
      Option.some ([], run.length)
    else Option.none
  else Option.none

/-- `replace(/\n#+\n\n/g, '\n\n')` (line 1078). -/
def bs24Step : List Char → Option (List Char × Nat)
  | '\n' :: rest =>
    let run := rest.takeWhile (· == '#')
    if run.length ≥ 1 then
      match dropLit ['\n', '\n'] (rest.drop run.length) with
      | Option.some _ => Option.some (['\n', '\n'], 1 + run.length + 2)
      | Option.none => Option.none
    else Option.none
  | _ => Option.none

/-- `replace(/\n#+$/gm, '')` (line 1079). -/
def bs25Step : List Char → Option (List Char × Nat)
  | '\n' :: rest =>
    let run := rest.takeWhile (· == '#')
    if run.length ≥ 1 &&
        ((rest.drop run.length).head? == Option.some '\n' || (rest.drop run.length).isEmpty) then
      Option.some ([], 1 + run.length)
    else Option.none
  | _ => Option.none

/-- `replace(/([^\n\s])##+\n\n/g, '$1.\n\n')` (line 1083). -/
def bs26Step : List Char → Option (List Char × Nat)
  | c :: rest =>
    if !isJsSpace c then
      let run := rest.takeWhile (· == '#')
      if run.length ≥ 2 then
        match dropLit ['\n', '\n'] (rest.drop run.length) with
        | Option.some _ => Option.some ([c, '.', '\n', '\n'], 1 + run.length + 2)
        | Option.none => Option.none
      else Option.none
    else Option.none
  | [] => Option.none

/-- `replace(/([^\n\s])#\n\n/g, '$1.\n\n')` (line 1084). -/
def bs27Step : List Char → Option (List Char × Nat)
  | c :: '#' :: '\n' :: '\n' :: _ =>
    if !isJsSpace c then Option.some ([c, '.', '\n', '\n'], 4) else Option.none
  | _ => Option.none

/-- `replace(/```\n\n\./g, '```\n\n')` (line 1087). -/
def bs28Step : List Char → Option (List Char × Nat)
  | '`' :: '`' :: '`' :: '\n' :: '\n' :: '.' :: _ =>
    Option.some (['`', '`', '`', '\n', '\n'], 6)
  | _ => Option.none

/-- `replace(/```\.\n/g, '```\n')` (line 1088). -/
def bs29Step : List Char → Option (List Char × Nat)
  | '`' :: '`' :: '`' :: '.' :: '\n' :: _ =>
    Option.some (['`', '`', '`', '\n'], 5)
  | _ => Option.none

/-- `replace(/(<\/[A-Z]\w+>)\.\n\n/g, '$1\n\n')` (line 1091). -/
def bs30Step (s : List Char) : Option (List Char × Nat) :=
  match parseCloseTagAt s with
  | Option.some (tag, k) =>
    (match dropLit ['.', '\n', '\n'] (s.drop k) with
     | Option.some _ => Option.some (tag ++ ['\n', '\n'], k + 3)
     | Option.none => Option.none)
  | Option.none => Option.none

/-- `replace(/(<\/[A-Z]\w+>)\.\n/g, '$1\n')` (line 1092). -/
def bs31Step (s : List Char) : Option (List Char × Nat) :=
  match parseCloseTagAt s with
  | Option.some (tag, k) =>
    (match dropLit ['.', '\n'] (s.drop k) with
     | Option.some _ => Option.some (tag ++ ['\n'], k + 2)
     | Option.none => Option.none)
  | Option.none => Option.none

/-- Parse ``(\[`[^\]]+`\]\([^)]+\))`` at the head: a backticked markdown
link; returns its text and length. -/
def parseTickLinkAt : List Char → Option (List Char × Nat)
  | '[' :: '`' :: rest =>
    let r := rest.takeWhile (· != ']')
    if r.length ≥ 2 && r.getLast? == Option.some '`' then
      match rest.drop r.length with
      | ']' :: '(' :: rest2 =>
        let url := rest2.takeWhile (· != ')')
        if url.length == 0 then Option.none
        else
          (match rest2.drop url.length with
           | ')' :: _ =>
             Option.some ('[' :: '`' :: r ++ ']' :: '(' :: url ++ [')'],
               2 + r.length + 2 + url.length + 1)
           | _ => Option.none)
      | _ => Option.none
    else Option.none
  | _ => Option.none

/-- `replace(/(\[`[^\]]+`\]\([^)]+\))\.\n\n/g, '$1\n\n')` (line 1095). -/
def bs32Step (s : List Char) : Option (List Char × Nat) :=
  match parseTickLinkAt s with
  | Option.some (lnk, k) =>
    (match dropLit ['.', '\n', '\n'] (s.drop k) with
     | Option.some _ => Option.some (lnk ++ ['\n', '\n'], k + 3)
     | Option.none => Option.none)
  | Option.none => Option.none

/-- `replace(/(\[`[^\]]+`\]\([^)]+\))\.\n/g, '$1\n')` (line 1096). -/
def bs33Step (s : List Char) : Option (List Char × Nat) :=
  match parseTickLinkAt s with
  | Option.some (lnk, k) =>
    (match dropLit ['.', '\n'] (s.drop k) with
     | Option.some _ => Option.some (lnk ++ ['\n'], k + 2)
     | Option.none => Option.none)
  | Option.none => Option.none

/-- `replace(/([^\n])\n(<CodeGroup>)/g, '$1\n\n$2')` (line 1099). -/
def bs34Step : List Char → Option (List Char × Nat)
  | c :: '\n' :: rest =>
    if c != '\n' && ("<CodeGroup>".data.isPrefixOf rest) then
      Option.some (c :: '\n' :: '\n' :: "<CodeGroup>".data, 2 + 11)
    else Option.none
  | _ => Option.none

/-- `replace(/(<\/CodeGroup>)\n([^\n])/g, '$1\n\n$2')` (line 1100). -/
def bs35Step (s : List Char) : Option (List Char × Nat) :=
  match dropLit "</CodeGroup>".data s with
  | Option.some rest =>
    (match rest with
     | '\n' :: c :: _ =>
       if c != '\n' then
         Option.some ("</CodeGroup>".data ++ ['\n', '\n', c], 12 + 2)
       else Option.none
     | _ => Option.none)
  | Option.none => Option.none

end Renderer

namespace Renderer

/-- All start indices of a literal in a text (overlapping included). -/
def allIndicesOf (needle : List Char) : List Char → List Nat
  | [] => []
  | c :: cs =>
    (if needle.isPrefixOf (c :: cs) then [0] else []) ++ (allIndicesOf needle cs).map (· + 1)

/-- First success of a partial function over a candidate list. -/
def firstSome {α β : Type} (f : α → Option β) : List α → Option β
  | [] => Option.none
  | a :: as =>
    match f a with
    | Option.some b => Option.some b
    | Option.none => firstSome f as

/-- `/g` driver that also tracks the `m`-flag line-start condition: the flag
passed to the step is true at position 0 and right after a `'\n'`. -/
def scanReplM (step : Bool → List Char → Option (List Char × Nat)) :
    Nat → Bool → List Char → List Char
  | 0, _, s => s
  | _, _, [] => []
  | n + 1, atLS, c :: cs =>
    match step atLS (c :: cs) with
    | Option.some (repl, k) =>
      repl ++ scanReplM step n ((((c :: cs).drop (k - 1)).head?) == Option.some '\n')
        ((c :: cs).drop k)
    | Option.none => c :: scanReplM step n (c == '\n') cs

/-- Run a line-start-aware `/g` replacement over a string. -/
def runReplM (step : Bool → List Char → Option (List Char × Nat)) (s : String) : String :=
  ⟨scanReplM step (s.data.length + 1) true s.data⟩

/-- Literal of `'###### Returns\n\n`'`. -/
def bs10lit1 : List Char := "###### Returns\n\n`".data

/-- Literal of `'\n\n###### Returns\n\n`'`. -/
def bs10lit2 : List Char := "\n\n###### Returns\n\n`".data

/-- Third group of rule 1049, `` (.+?)` `` with the `s` flag: first
backtick at index ≥ 1. -/
def bs10G3 (s : List Char) : Option Nat :=
  match indexOfSub ['`'] (s.drop 1) with
  | Option.some i => Option.some (1 + i)
  | Option.none => Option.none

/-- Second group of rule 1049: lazily growing `(.+?)` (with `s`) until the
literal `\n\n###### Returns\n\n`` followed by a valid third group. -/
def bs10TryG2 : Nat → Nat → List Char → Option (Nat × Nat)
  | 0, _, _ => Option.none
  | fuel + 1, g2len, rest =>
    if bs10lit2.isPrefixOf rest then
      match bs10G3 (rest.drop bs10lit2.length) with
      | Option.some g3 => Option.some (g2len, g3)
      | Option.none =>
        (match rest with
         | [] => Option.none
         | _ :: t => bs10TryG2 fuel (g2len + 1) t)
    else
      match rest with
      | [] => Option.none
      | _ :: t => bs10TryG2 fuel (g2len + 1) t

/-- First group of rule 1049: lazily growing `(.+?)` until a backtick with a
matching continuation. -/
def bs10TryG1 : Nat → Nat → List Char → Option (Nat × Nat × Nat)
  | 0, _, _ => Option.none
  | fuel + 1, g1len, rest =>
    match rest with
    | '`' :: after =>
      (match dropLit ['\n', '\n'] after with
       | Option.some s2 =>
         (match s2 with
          | [] => bs10TryG1 fuel (g1len + 1) after
          | _ :: t2 =>
            match bs10TryG2 (s2.length + 1) 1 t2 with
            | Option.some (g2, g3) => Option.some (g1len, g2, g3)
            | Option.none => bs10TryG1 fuel (g1len + 1) after)
       | Option.none => bs10TryG1 fuel (g1len + 1) after)
    | [] => Option.none
    | _ :: t => bs10TryG1 fuel (g1len + 1) t

/-- `replace(/###### Returns\n\n`(.+?)`\n\n(.+?)\n\n###### Returns\n\n`(.+?)`/gs,
'###### Returns\n\n`$1`\n\n$2\n\n')` (line 1049). -/
def bs10Step (s : List Char) : Option (List Char × Nat) :=
  match dropLit bs10lit1 s with
  | Option.none => Option.none
  | Option.some s1 =>
    match s1 with
    | [] => Option.none
    | _ :: t1 =>
      match bs10TryG1 (s1.length + 1) 1 t1 with
      | Option.some (g1, g2, g3) =>
        let grp1 := s1.take g1
        let s2 := s1.drop (g1 + 1 + 2)
        let grp2 := s2.take g2
        Option.some (bs10lit1 ++ grp1 ++ '`' :: '\n' :: '\n' :: grp2 ++ ['\n', '\n'],
          bs10lit1.length + g1 + 1 + 2 + g2 + bs10lit2.length + g3 + 1)
      | Option.none => Option.none

/-- `replace(/<ParamField[^>]*>\s*<\/ParamField>/g, '')` (line 1053). -/
def bs11Step (s : List Char) : Option (List Char × Nat) :=
  match dropLit "<ParamField".data s with
  | Option.none => Option.none
  | Option.some s1 =>
    let trailing := s1.takeWhile (· != '>')
    match s1.drop trailing.length with
    | '>' :: rest2 =>
      let ws := rest2.takeWhile isJsSpace
      (match dropLit "</ParamField>".data (rest2.drop ws.length) with
       | Option.some _ =>
         Option.some ([], 11 + trailing.length + 1 + ws.length + 13)
       | Option.none => Option.none)
    | _ => Option.none

/-- `replace(/<ResponseField[^>]*>\s*<\/ResponseField>/g, '')` (line 1054). -/
def bs12Step (s : List Char) : Option (List Char × Nat) :=
  match dropLit "<ResponseField".data s with
  | Option.none => Option.none
  | Option.some s1 =>
    let trailing := s1.takeWhile (· != '>')
    match s1.drop trailing.length with
    | '>' :: rest2 =>
      let ws := rest2.takeWhile isJsSpace
      (match dropLit "</ResponseField>".data (rest2.drop ws.length) with
       | Option.some _ =>
         Option.some ([], 14 + trailing.length + 1 + ws.length + 16)
       | Option.none => Option.none)
    | _ => Option.none

/-- Lazy group of rule 1057, `(.+?)` (no `s` flag: must stay on one line),
closed by a backtick and followed by `\n\n<ResponseField`. -/
def bs13Try : Nat → Nat → List Char → Option Nat
  | 0, _, _ => Option.none
  | fuel + 1, len, rest =>
    match rest with
    | [] => Option.none
    | '`' :: after =>
      if ['\n', '\n'].isPrefixOf after && "<ResponseField".data.isPrefixOf (after.drop 2) then
        Option.some len
      else bs13Try fuel (len + 1) after
    | '\n' :: _ => Option.none
    | _ :: t => bs13Try fuel (len + 1) t

/-- `replace(/\*\*Type:\*\* `(.+?)`\n\n(?=<ResponseField)/g, '')`
(line 1057). -/
def bs13Step (s : List Char) : Option (List Char × Nat) :=
  match dropLit "**Type:** `".data s with
  | Option.none => Option.none
  | Option.some s1 =>
    match s1 with
    | [] => Option.none
    | c :: t =>
      if c == '\n' then Option.none
      else
        match bs13Try (t.length + 1) 1 t with
        | Option.some len => Option.some ([], 11 + len + 1 + 2)
        | Option.none => Option.none

/-- `replace(/(<ResponseField[^>]*type="([^"]+)"[^>]*>)\n\n\*\*Type:\*\* `\2`\n\n/g,
'$1\n')` (line 1060): the `type` attribute is the last `type="` before the
first `>`, and the backreference must repeat its value. -/
def bs14Step (s : List Char) : Option (List Char × Nat) :=
  match dropLit "<ResponseField".data s with
  | Option.none => Option.none
  | Option.some s1 =>
    match indexOfSub ['>'] s1 with
    | Option.none => Option.none
    | Option.some gtIdx =>
      let region := s1.take gtIdx
      firstSome
        (fun p =>
          let afterT := s1.drop (p + 6)
          let v := afterT.takeWhile (· != '"')
          if v.length == 0 then Option.none
          else
            match afterT.drop v.length with
            | '"' :: afterQ =>
              let trailing := afterQ.takeWhile (· != '>')
              (match afterQ.drop trailing.length with
               | '>' :: afterGt =>
                 let lit2 := '\n' :: '\n' :: "**Type:** `".data ++ v ++ ['`', '\n', '\n']
                 if lit2.isPrefixOf afterGt then
                   let tagLen := 14 + p + 6 + v.length + 1 + trailing.length + 1
                   Option.some (s.take tagLen ++ ['\n'], tagLen + lit2.length)
                 else Option.none
               | _ => Option.none)
            | _ => Option.none)
        ((allIndicesOf "type=\"".data region).reverse)

end Renderer

namespace Renderer

/-- `generateParameterDescription` (`src/renderer.js` lines 302–340): the
markdown-transformer's description lexicon (a superset of the
reflection-renderer's). -/
def generateParameterDescription (name ty : String) : String :=
  let nameLower := jsLower name
  if strIncludes nameLower "id" then "Unique identifier for the resource."
  else if strIncludes nameLower "url" || strIncludes nameLower "endpoint" then
    "The API endpoint URL."
  else if strIncludes nameLower "key" || strIncludes nameLower "token" ||
      strIncludes nameLower "auth" then "Authentication credentials or API key."
  else if strIncludes nameLower "options" || strIncludes nameLower "config" then
    "Configuration options for the request."
  else if strIncludes nameLower "data" || strIncludes nameLower "body" ||
      strIncludes nameLower "payload" then "Request payload data."
  else if strIncludes nameLower "limit" then "Maximum number of results to return."
  else if strIncludes nameLower "offset" || strIncludes nameLower "skip" then
    "Number of results to skip."
  else if strIncludes nameLower "timeout" then "Request timeout in milliseconds."
  else if strIncludes nameLower "retry" then "Retry configuration for failed requests."
  else if strIncludes nameLower "headers" then "Custom headers to include in the request."
  else if strIncludes nameLower "message" || strIncludes nameLower "msg" then
    "Descriptive message or error text."
  else if strIncludes nameLower "type" then "Type or category identifier."
  else if strIncludes nameLower "status" then "HTTP status code."
  else if ty == "string" then "The " ++ name ++ " value."
  else if ty == "number" then "Numeric value for " ++ name ++ "."
  else if ty == "boolean" then "Whether " ++ name ++ " is enabled."
  else "The " ++ name ++ " parameter."

/-- A parameter record built by `transformFunctionParameters`. -/
structure PF where
  pfName : String
  pfType : String
  pfDesc : String
  pfRequired : Bool

/-- The lookahead `(?=\n#### |\n### |\n## |\n# |$)` of
`transformFunctionParameters` (line 1274). -/
def fnParamLookahead (s : List Char) : Bool :=
  "\n#### ".data.isPrefixOf s || "\n### ".data.isPrefixOf s ||
    "\n## ".data.isPrefixOf s || "\n# ".data.isPrefixOf s || s.isEmpty

/-- Lazy `([\s\S]*?)` up to the lookahead: the smallest section length. -/
def bs36Scan : Nat → Nat → List Char → Option Nat
  | 0, _, _ => Option.none
  | fuel + 1, len, rest =>
    if fnParamLookahead rest then Option.some len
    else
      match rest with
      | [] => Option.none
      | _ :: t => bs36Scan fuel (len + 1) t

/-- Match of the bullet pattern
`/• \*\*(\w+[?]?)\*\*: (?:`(.+?)`|\[([^\]]+)\]\([^)]+\))/` at the head:
returns raw name and the type text (backtick body or link label). -/
def bulletAt (s : List Char) : Option (String × String) :=
  match dropLit "• **".data s with
  | Option.none => Option.none
  | Option.some s1 =>
    let w := s1.takeWhile isWordChar
    if w.length == 0 then Option.none
    else
      let (nm, afterName) :=
        match s1.drop w.length with
        | '?' :: r => (w ++ ['?'], r)
        | r => (w, r)
      match dropLit "**: ".data afterName with
      | Option.none => Option.none
      | Option.some s2 =>
        match s2 with
        | '`' :: r =>
          let inner := r.takeWhile (· != '`')
          if inner.length ≥ 1 && (r.drop inner.length).head? == Option.some '`' then
            Option.some (⟨nm⟩, ⟨inner⟩)
          else Option.none
        | '[' :: r =>
          let lbl := r.takeWhile (· != ']')
          if lbl.length == 0 then Option.none
          else
            (match r.drop lbl.length with
             | ']' :: '(' :: r2 =>
               let url := r2.takeWhile (· != ')')
               if url.length ≥ 1 && (r2.drop url.length).head? == Option.some ')' then
                 Option.some (⟨nm⟩, ⟨lbl⟩)
               else Option.none
             | _ => Option.none)
        | _ => Option.none

/-- `line.match(bullet pattern)` — search anywhere in the line. -/
def bulletSearch : List Char → Option (String × String)
  | [] => Option.none
  | c :: cs =>
    match bulletAt (c :: cs) with
    | Option.some r => Option.some r
    | Option.none => bulletSearch cs

/-- `name.replace('?', '')` — remove the first occurrence. -/
def removeFirstChar (ch : Char) : List Char → List Char
  | [] => []
  | c :: cs => if c == ch then cs else c :: removeFirstChar ch cs

/-- `replace(/^`|`$/g, '')` — one leading and one trailing backtick. -/
def stripEdgeTicks (s : String) : String :=
  let a := if strStartsWith s "`" then (⟨s.data.drop 1⟩ : String) else s
  if strEndsWith a "`" then ⟨a.data.take (a.data.length - 1)⟩ else a

/-- Skip a `<ParamField>` block: drop lines up to and including the first
line containing `</ParamField>` (lines 1292–1297). -/
def skipPF : List String → List String
  | [] => []
  | l :: ls => if strIncludes l "</ParamField>" then ls else skipPF ls

/-- The bullet-parsing loop of `transformFunctionParameters`
(lines 1283–1331). -/
def tfpGo : Nat → List String → List PF
  | 0, _ => []
  | _, [] => []
  | fuel + 1, line :: rest =>
    if strIncludes line "<ParamField" then tfpGo fuel (skipPF (line :: rest))
    else
      match bulletSearch line.data with
      | Option.some (rawName, rawType) =>
        let isOptional := rawName.data.contains '?'
        let cleanName : String := ⟨removeFirstChar '?' rawName.data⟩
        let actualType := jsTrim (stripEdgeTicks (jsTrim rawType))
        let step :=
          match rest with
          | next :: rest2 =>
            if !strStartsWith next "•" && !strIncludes next "<ParamField" then
              (jsTrim next, rest2)
            else ("", rest)
          | [] => ("", ([] : List String))
        let desc :=
          if step.1 == "" then generateParameterDescription cleanName actualType
          else if !strEndsWith step.1 "." then step.1 ++ "." else step.1
        ⟨cleanName, jsTrim actualType, desc, !isOptional⟩ :: tfpGo fuel step.2
      | Option.none => tfpGo fuel rest

/-- `paramsSection.match(/<ParamField[\s\S]*?<\/ParamField>/g) || []`. -/
def extractPFs : Nat → List Char → List (List Char)
  | 0, _ => []
  | _, [] => []
  | fuel + 1, c :: cs =>
    if "<ParamField".data.isPrefixOf (c :: cs) then
      match indexOfSub "</ParamField>".data ((c :: cs).drop 11) with
      | Option.some i =>
        (c :: cs).take (11 + i + 13) :: extractPFs fuel ((c :: cs).drop (11 + i + 13))
      | Option.none => extractPFs fuel cs
    else extractPFs fuel cs

/-- `transformFunctionParameters` (lines 1271–1354) as one `/g` step on
`#### Parameters` sections. -/
def bs36Step (s : List Char) : Option (List Char × Nat) :=
  match dropLit "#### Parameters\n\n".data s with
  | Option.none => Option.none
  | Option.some s1 =>
    match bs36Scan (s1.length + 1) 0 s1 with
    | Option.none => Option.none
    | Option.some len =>
      let paramsSection := s1.take len
      let total := 17 + len
      if !containsSub ['•'] paramsSection then Option.some (s.take total, total)
      else
        let paramLines := ((splitLinesAux [] paramsSection).map fun l => (⟨l⟩ : String)).filter
          (fun l => jsTrim l != "")
        let paramFields := tfpGo (paramLines.length + 1) paramLines
        if paramFields.length > 0 then
          let existing := extractPFs (paramsSection.length + 1) paramsSection
          let result :=
            "#### Parameters\n\n".data ++
            existing.foldl (fun acc e => acc ++ e ++ ['\n', '\n']) [] ++
            (paramFields.foldl (fun acc f =>
              acc ++ ("<ParamField path=\"" ++ f.pfName ++ "\" type=\"" ++ f.pfType ++ "\"" ++
                (if f.pfRequired then " required" else "") ++ ">\n" ++
                f.pfDesc ++ "\n</ParamField>\n\n").data) [])
          Option.some (result, total)
        else Option.some (s.take total, total)

/-- `transformFunctionParameters` over the whole document. -/
def transformFunctionParameters (content : String) : String :=
  runRepl bs36Step content

/-- The twin fixes of lines 1108–1128: turn a `ResponseField` right after an
`##### statusCode` / `##### type` heading into a `**Type:**` line, ensuring
the description ends with a period. -/
def statusTypeFix (headName : String) (s : List Char) : Option (List Char × Nat) :=
  let lit1 := ("##### " ++ headName ++ "\n\n").data
  let lit2 := ("<ResponseField name=\"" ++ headName ++ "\" type=\"").data
  match dropLit lit1 s with
  | Option.none => Option.none
  | Option.some s1 =>
    match dropLit lit2 s1 with
    | Option.none => Option.none
    | Option.some s2 =>
      let v := s2.takeWhile (· != '"')
      if v.length == 0 then Option.none
      else
        match s2.drop v.length with
        | '"' :: afterQ =>
          let trailing := afterQ.takeWhile (· != '>')
          (match afterQ.drop trailing.length with
           | '>' :: '\n' :: afterNl =>
             let desc := afterNl.takeWhile (· != '\n')
             if desc.length == 0 then Option.none
             else
               (match dropLit "\n</ResponseField>\n\n".data (afterNl.drop desc.length) with
                | Option.some _ =>
                  let d0 := jsTrimChars desc
                  let d := if d0.getLast? == Option.some '.' then d0 else d0 ++ ['.']
                  Option.some (lit1 ++ "**Type:** `".data ++ v ++ '`' :: '\n' :: '\n' :: d ++
                      ['\n', '\n'],
                    lit1.length + lit2.length + v.length + 1 + trailing.length + 1 + 1 +
                      desc.length + 19)
                | Option.none => Option.none)
           | _ => Option.none)
        | _ => Option.none

/-- The triple-closing-tag literal of lines 1131–1133. -/
def tripleClose : List Char := "</ResponseField>\n</ResponseField>\n</ResponseField>".data

/-- One global replacement of the triple closing tag by a single one. -/
def bs39Once (s : String) : String :=
  runRepl (fun t =>
    if tripleClose.isPrefixOf t then Option.some ("</ResponseField>".data, tripleClose.length)
    else Option.none) s

/-- The `while (content.includes(…))` loop of lines 1131–1133. -/
def bs39Loop : Nat → String → String
  | 0, s => s
  | n + 1, s =>
    if strIncludes s "</ResponseField>\n</ResponseField>\n</ResponseField>" then
      bs39Loop n (bs39Once s)
    else s

/-- Collapse repeated triple closing `ResponseField` tags. -/
def bs39 (s : String) : String := bs39Loop (s.data.length + 1) s

/-- Parse `<ResponseField name="(\w+)"[^>]*>` at the head. -/
def parseRFNamedAt (s : List Char) : Option (List Char × Nat) :=
  match dropLit "<ResponseField name=\"".data s with
  | Option.none => Option.none
  | Option.some s1 =>
    let w := s1.takeWhile isWordChar
    if w.length == 0 then Option.none
    else
      match s1.drop w.length with
      | '"' :: afterQ =>
        let trailing := afterQ.takeWhile (· != '>')
        (match afterQ.drop trailing.length with
         | '>' :: _ =>
           let len := 21 + w.length + 1 + trailing.length + 1
           Option.some (s.take len, len)
         | _ => Option.none)
      | _ => Option.none

/-- Parse `<ResponseField[^>]*>` at the head. -/
def parseRFGenericAt (s : List Char) : Option (List Char × Nat) :=
  match dropLit "<ResponseField".data s with
  | Option.none => Option.none
  | Option.some s1 =>
    let trailing := s1.takeWhile (· != '>')
    match s1.drop trailing.length with
    | '>' :: _ =>
      let len := 14 + trailing.length + 1
      Option.some (s.take len, len)
    | _ => Option.none

/-- `replace(/(<ResponseField name="(\w+)"[^>]*>)\n([^\n]+)\n\n(###### \w+)/g, …)`
(lines 1139–1145): close the field before the next H6 heading. -/
def bs40Step (s : List Char) : Option (List Char × Nat) :=
  match parseRFNamedAt s with
  | Option.none => Option.none
  | Option.some (tag, k) =>
    match s.drop k with
    | '\n' :: rest =>
      let desc := rest.takeWhile (· != '\n')
      if desc.length == 0 then Option.none
      else
        (match dropLit ['\n', '\n'] (rest.drop desc.length) with
         | Option.some afterBlank =>
           (match dropLit "###### ".data afterBlank with
            | Option.some afterH =>
              let w := afterH.takeWhile isWordChar
              if w.length == 0 then Option.none
              else
                Option.some (tag ++ '\n' :: desc ++ "\n</ResponseField>\n\n".data ++
                    "###### ".data ++ w,
                  k + 1 + desc.length + 2 + 7 + w.length)
            | Option.none => Option.none)
         | Option.none => Option.none)
    | _ => Option.none

/-- The same with an extra blank line (lines 1148–1154). -/
def bs41Step (s : List Char) : Option (List Char × Nat) :=
  match parseRFNamedAt s with
  | Option.none => Option.none
  | Option.some (tag, k) =>
    match s.drop k with
    | '\n' :: rest =>
      let desc := rest.takeWhile (· != '\n')
      if desc.length == 0 then Option.none
      else
        (match dropLit ['\n', '\n', '\n'] (rest.drop desc.length) with
         | Option.some afterBlank =>
           (match dropLit "###### ".data afterBlank with
            | Option.some afterH =>
              let w := afterH.takeWhile isWordChar
              if w.length == 0 then Option.none
              else
                Option.some (tag ++ '\n' :: desc ++ "\n</ResponseField>\n\n".data ++
                    "###### ".data ++ w,
                  k + 1 + desc.length + 3 + 7 + w.length)
            | Option.none => Option.none)
         | Option.none => Option.none)
    | _ => Option.none

/-- The group-1 literal of the two `retry` fixes
(`<ResponseField name="retry" type="object">\n`). -/
def retryLit : List Char := "<ResponseField name=\"retry\" type=\"object\">\n".data

/-- Head of a list is an uppercase ASCII letter. -/
def isUpperHead : List Char → Bool
  | c :: _ => isUpperAscii c
  | [] => false

/-- Group 4 of the first retry fix: `(### [A-Z]|## [A-Z]|# [A-Z]|$)`
(consumed). -/
def bs42G4 (s : List Char) : Option Nat :=
  if "### ".data.isPrefixOf s && isUpperHead (s.drop 4) then Option.some 5
  else if "## ".data.isPrefixOf s && isUpperHead (s.drop 3) then Option.some 4
  else if "# ".data.isPrefixOf s && isUpperHead (s.drop 2) then Option.some 3
  else if s.isEmpty then Option.some 0
  else Option.none

/-- Group 3 of the first retry fix: `(<\/ResponseField>\s*\n\n)` followed by
group 4; the greedy `\s*` picks the largest split. -/
def bs42WsG4 (s : List Char) : Option (Nat × Nat) :=
  let run := s.takeWhile isJsSpace
  firstSome
    (fun p =>
      if ((s.drop p).take 2 == ['\n', '\n']) && decide (p ≤ run.length) then
        match bs42G4 (s.drop (p + 2)) with
        | Option.some g4 => Option.some (p, g4)
        | Option.none => Option.none
      else Option.none)
    ((List.range (run.length + 1)).reverse)

/-- Lazy `([\s\S]*?)` of the first retry fix, scanning for a
`</ResponseField>` with a matching tail. -/
def bs42Scan : Nat → Nat → List Char → Option (Nat × Nat × Nat)
  | 0, _, _ => Option.none
  | fuel + 1, len, rest =>
    if "</ResponseField>".data.isPrefixOf rest then
      match bs42WsG4 (rest.drop 16) with
      | Option.some (p, g4) => Option.some (len, p, g4)
      | Option.none =>
        (match rest with
         | [] => Option.none
         | _ :: t => bs42Scan fuel (len + 1) t)
    else
      match rest with
      | [] => Option.none
      | _ :: t => bs42Scan fuel (len + 1) t

/-- First `retry` fix (lines 1158–1183): when the nested tags are balanced
and the nested content does not already end with a closing tag, add the
parent's closing tag after the last close. -/
def bs42Step (s : List Char) : Option (List Char × Nat) :=
  match dropLit retryLit s with
  | Option.none => Option.none
  | Option.some s1 =>
    let dsc := s1.takeWhile (· != '\n')
    if dsc.length == 0 then Option.none
    else
      match dropLit ['\n', '\n'] (s1.drop dsc.length) with
      | Option.none => Option.none
      | Option.some s2 =>
        let g1len := retryLit.length + dsc.length + 2
        match bs42Scan (s2.length + 1) 0 s2 with
        | Option.none => Option.none
        | Option.some (len, p, g4) =>
          let nested := s2.take len
          let afterClose := s2.drop (len + 16)
          let lastClose := "</ResponseField>".data ++ afterClose.take (p + 2)
          let nextSection := (s2.drop (len + 16 + p + 2)).take g4
          let total := g1len + len + 16 + p + 2 + g4
          let opens := countSubAux "<ResponseField".data (nested.length + 1) nested
          let closes := countSubAux "</ResponseField>".data (nested.length + 1) nested
          if opens == closes && decide (opens > 0) then
            if !("</ResponseField>".data.isSuffixOf (jsTrimChars nested)) then
              Option.some (s.take g1len ++ nested ++ lastClose ++
                "</ResponseField>\n\n".data ++ nextSection, total)
            else Option.some (s.take total, total)
          else Option.some (s.take total, total)

/-- Group 3 of the second retry fix: `(\n### [A-Z]|\n## [A-Z]|\n# [A-Z]|$)`. -/
def bs43G3 : List Char → Option Nat
  | '\n' :: rest =>
    if "### ".data.isPrefixOf rest && isUpperHead (rest.drop 4) then Option.some 6
    else if "## ".data.isPrefixOf rest && isUpperHead (rest.drop 3) then Option.some 5
    else if "# ".data.isPrefixOf rest && isUpperHead (rest.drop 2) then Option.some 4
    else Option.none
  | [] => Option.some 0
  | _ => Option.none

/-- Lazy `([\s\S]*?)` of the second retry fix. -/
def bs43Scan : Nat → Nat → List Char → Option (Nat × Nat)
  | 0, _, _ => Option.none
  | fuel + 1, len, rest =>
    match bs43G3 rest with
    | Option.some g3 => Option.some (len, g3)
    | Option.none =>
      match rest with
      | [] => Option.none
      | _ :: t => bs43Scan fuel (len + 1) t

/-- Inner rewrite `replace(/<\/ResponseField>\s*\n\n(?=######)/g, '\n\n')`
of the second retry fix (line 1192). -/
def subAStep (s : List Char) : Option (List Char × Nat) :=
  match dropLit "</ResponseField>".data s with
  | Option.none => Option.none
  | Option.some s1 =>
    let run := s1.takeWhile isJsSpace
    firstSome
      (fun p =>
        if ((s1.drop p).take 2 == ['\n', '\n']) && decide (p ≤ run.length) &&
            "######".data.isPrefixOf (s1.drop (p + 2)) then
          Option.some (['\n', '\n'], 16 + p + 2)
        else Option.none)
      ((List.range (run.length + 1)).reverse)

/-- Inner rewrite `replace(/(<ResponseField[^>]*>)\n([^\n]+)\n\n(?=###### \w+)/g, …)`
of the second retry fix (lines 1201–1206). -/
def subBStep (s : List Char) : Option (List Char × Nat) :=
  match parseRFGenericAt s with
  | Option.none => Option.none
  | Option.some (tag, k) =>
    match s.drop k with
    | '\n' :: rest =>
      let desc := rest.takeWhile (· != '\n')
      if desc.length == 0 then Option.none
      else
        (match dropLit ['\n', '\n'] (rest.drop desc.length) with
         | Option.some after =>
           if "###### ".data.isPrefixOf after &&
               (match (after.drop 7).head? with
                | Option.some c => isWordChar c
                | Option.none => false) then
             Option.some (tag ++ '\n' :: desc ++ "\n</ResponseField>\n\n".data,
               k + 1 + desc.length + 2)
           else Option.none
         | Option.none => Option.none)
    | _ => Option.none

/-- Match of the `doubleClosePattern`
`/<\/ResponseField>\s*\n\n<\/ResponseField>\s*\n\n(?=### )/` at the head. -/
def dblCloseAt (s : List Char) : Bool :=
  match dropLit "</ResponseField>".data s with
  | Option.none => false
  | Option.some s1 =>
    let run1 := s1.takeWhile isJsSpace
    (List.range (run1.length + 1)).any fun p =>
      ((s1.drop p).take 2 == ['\n', '\n']) && decide (p ≤ run1.length) &&
        (match dropLit "</ResponseField>".data (s1.drop (p + 2)) with
         | Option.some s2 =>
           let run2 := s2.takeWhile isJsSpace
           (List.range (run2.length + 1)).any fun q =>
             ((s2.drop q).take 2 == ['\n', '\n']) && decide (q ≤ run2.length) &&
               "### ".data.isPrefixOf (s2.drop (q + 2))
         | Option.none => false)

/-- `doubleClosePattern.test(…)` — search anywhere. -/
def dblCloseTest : List Char → Bool
  | [] => false
  | c :: cs => dblCloseAt (c :: cs) || dblCloseTest cs

/-- Second `retry` fix (lines 1187–1242). -/
def bs43Step (s : List Char) : Option (List Char × Nat) :=
  match dropLit retryLit s with
  | Option.none => Option.none
  | Option.some s1 =>
    let dsc := s1.takeWhile (· != '\n')
    if dsc.length == 0 then Option.none
    else
      match dropLit ['\n', '\n'] (s1.drop dsc.length) with
      | Option.none => Option.none
      | Option.some s2 =>
        let g1len := retryLit.length + dsc.length + 2
        match bs43Scan (s2.length + 1) 0 s2 with
        | Option.none => Option.none
        | Option.some (len, g3) =>
          let nested := s2.take len
          let nextSection := (s2.drop len).take g3
          let total := g1len + len + g3
          let fixedA := scanRepl subAStep (nested.length + 1) nested
          let opens := countSubAux "<ResponseField".data (fixedA.length + 1) fixedA
          let closes := countSubAux "</ResponseField>".data (fixedA.length + 1) fixedA
          let fixedNested :=
            if decide (opens > closes) then scanRepl subBStep (fixedA.length + 1) fixedA
            else fixedA
          let finalOpens := countSubAux "<ResponseField".data (fixedNested.length + 1) fixedNested
          let finalCloses :=
            countSubAux "</ResponseField>".data (fixedNested.length + 1) fixedNested
          let hasClosing := "</ResponseField>".data.isSuffixOf (jsTrimChars fixedNested)
          if finalOpens == finalCloses then
            if !hasClosing then
              Option.some (s.take g1len ++ fixedNested ++ "\n</ResponseField>\n\n".data ++
                nextSection, total)
            else if dblCloseTest (fixedNested ++ ['\n', '\n'] ++ nextSection) then
              Option.some (s.take g1len ++ fixedNested ++ ['\n', '\n'] ++ nextSection, total)
            else
              Option.some (s.take g1len ++ fixedNested ++ "\n</ResponseField>\n\n".data ++
                nextSection, total)
          else Option.some (s.take total, total)

/-- The lookahead `(?=### |## |# |$)` of lines 1247–1249. -/
def sectionLookahead (s : List Char) : Bool :=
  "### ".data.isPrefixOf s || "## ".data.isPrefixOf s || "# ".data.isPrefixOf s || s.isEmpty

/-- `replace(/\n\n<\/ResponseField>\s*\n\n(?=### |## |# |$)/g, '\n\n')`
(line 1247). -/
def bs44Step : List Char → Option (List Char × Nat)
  | '\n' :: '\n' :: rest =>
    (match dropLit "</ResponseField>".data rest with
     | Option.some s1 =>
       let run := s1.takeWhile isJsSpace
       firstSome
         (fun p =>
           if ((s1.drop p).take 2 == ['\n', '\n']) && decide (p ≤ run.length) &&
               sectionLookahead (s1.drop (p + 2)) then
             Option.some (['\n', '\n'], 2 + 16 + p + 2)
           else Option.none)
         ((List.range (run.length + 1)).reverse)
     | Option.none => Option.none)
  | _ => Option.none

/-- `replace(/(<\/ResponseField>\s*\n\n)\s*<\/ResponseField>\s*\n\n(?=### |## |# |$)/g,
'$1\n\n')` (line 1249). -/
def bs45Step (s : List Char) : Option (List Char × Nat) :=
  match dropLit "</ResponseField>".data s with
  | Option.none => Option.none
  | Option.some s1 =>
    let run := s1.takeWhile isJsSpace
    match dropLit "</ResponseField>".data (s1.drop run.length) with
    | Option.none => Option.none
    | Option.some s2 =>
      match firstSome
          (fun p =>
            if ((s1.drop p).take 2 == ['\n', '\n']) && decide (p + 2 ≤ run.length) then
              Option.some p
            else Option.none)
          ((List.range (run.length + 1)).reverse) with
      | Option.none => Option.none
      | Option.some p1 =>
        let run2 := s2.takeWhile isJsSpace
        firstSome
          (fun q =>
            if ((s2.drop q).take 2 == ['\n', '\n']) && decide (q ≤ run2.length) &&
                sectionLookahead (s2.drop (q + 2)) then
              Option.some ("</ResponseField>".data ++ s1.take (p1 + 2) ++ ['\n', '\n'],
                16 + run.length + 16 + q + 2)
            else Option.none)
          ((List.range (run2.length + 1)).reverse)

/-- Lazy `([^<]+?)` of line 1252, closed by `\n\n` and a `######` lookahead. -/
def bs46Try : Nat → Nat → List Char → Option Nat
  | 0, _, _ => Option.none
  | fuel + 1, len, rest =>
    if (['\n', '\n'].isPrefixOf rest) && "######".data.isPrefixOf (rest.drop 2) then
      Option.some len
    else
      match rest with
      | [] => Option.none
      | '<' :: _ => Option.none
      | _ :: t => bs46Try fuel (len + 1) t

/-- `replace(/(<ResponseField[^>]*>)\n([^<]+?)\n\n(?=######)/g, …)`
(lines 1252–1261): add the missing final period to the description. -/
def bs46Step (s : List Char) : Option (List Char × Nat) :=
  match parseRFGenericAt s with
  | Option.none => Option.none
  | Option.some (tag, k) =>
    match s.drop k with
    | '\n' :: rest =>
      (match rest with
       | [] => Option.none
       | '<' :: _ => Option.none
       | _ :: t =>
         match bs46Try (t.length + 1) 1 t with
         | Option.some len =>
           let grp := rest.take len
           let d0 := jsTrimChars grp
           let d := if d0.getLast? == Option.some '.' then d0 else d0 ++ ['.']
           Option.some (tag ++ '\n' :: d ++ ['\n', '\n'], k + 1 + len + 2)
         | Option.none => Option.none)
    | _ => Option.none

/-- `beautifyStructure` (`src/renderer.js` lines 980–1264): the full
rewrite chain, in source order. -/
def beautifyStructure (content : String) : String :=
  let c01 := runRepl bs01Step content
  let c02 := runRepl bs02Step c01
  let c03 := bs03_balance c02
  let c04 := runRepl bs04Step c03
  let c05 := runRepl bs05Step c04
  let c06 := runRepl bs06Step c05
  let c07 := runRepl bs07Step c06
  let c08 := runRepl bs08Step c07
  let c09 := bs09_trimTrailing c08
  let c10 := runRepl bs10Step c09
  let c11 := runRepl bs11Step c10
  let c12 := runRepl bs12Step c11
  let c13 := runRepl bs13Step c12
  let c14 := runRepl bs14Step c13
  let c15 := runRepl bs15Step c14
  let c16 := runReplM bs16Step c15
  let c17 := runReplM bs17Step c16
  let c18 := runRepl bs18Step c17
  let c19 := runRepl bs19Step c18
  let c20 := runRepl bs20Step c19
  let c21 := bs21_filterHashDot c20
  let c22 := runReplM bs22Step c21
  let c23 := runReplM bs23Step c22
  let c24 := runRepl bs24Step c23
  let c25 := runRepl bs25Step c24
  let c26 := runRepl bs26Step c25
  let c27 := runRepl bs27Step c26
  let c28 := runRepl bs28Step c27
  let c29 := runRepl bs29Step c28
  let c30 := runRepl bs30Step c29
  let c31 := runRepl bs31Step c30
  let c32 := runRepl bs32Step c31
  let c33 := runRepl bs33Step c32
  let c34 := runRepl bs34Step c33
  let c35 := runRepl bs35Step c34
  let c36 := transformFunctionParameters c35
  let c37 := runRepl (statusTypeFix "statusCode") c36
  let c38 := runRepl (statusTypeFix "type") c37
  let c39 := bs39 c38
  let c40 := runRepl bs40Step c39
  let c41 := runRepl bs41Step c40
  let c42 := runRepl bs42Step c41
  let c43 := runRepl bs43Step c42
  let c44 := runRepl bs44Step c43
  let c45 := runRepl bs45Step c44
  runRepl bs46Step c45

end Renderer

namespace Theme

/-- The per-position agreement forced by the fence toggle: fence-marker
lines and lines inside an open fence must be reproduced verbatim; other
positions are unconstrained.  `fencePreserved b ls ms` checks the output
`ms` against the input `ls`, starting in fence state `b`. -/
def fencePreserved : Bool → List String → List String → Bool
  | _, [], [] => true
  | b, l :: ls, m :: ms =>
    if fenceLine l then (l == m) && fencePreserved (!b) ls ms
    else if b then (l == m) && fencePreserved b ls ms
    else fencePreserved b ls ms
  | _, _, _ => false

end Theme

namespace ReflectionRenderer

/-- Description bodies of the `ParamField` blocks of a rendered text: the
lines strictly between each `<ParamField …>` line and its `</ParamField>`
line. -/
def paramFieldDescsAux : Nat → List String → List String
  | 0, _ => []
  | _, [] => []
  | fuel + 1, l :: ls =>
    if strStartsWith l "<ParamField " then
      let inner := ls.takeWhile (fun m => m != "</ParamField>")
      joinLines inner :: paramFieldDescsAux fuel (ls.drop (inner.length + 1))
    else paramFieldDescsAux fuel ls

/-- All `ParamField` description bodies of a rendered string. -/
def paramFieldDescriptions (s : String) : List String :=
  paramFieldDescsAux ((splitLines s).length + 1) (splitLines s)

end ReflectionRenderer

/-! ## Concrete sample inputs used by the claims -/

/-- Renderer state with an empty type map and no frontmatter description. -/
def rrState0 : ReflectionRenderer.RState :=
  ⟨[], Option.none, Option.none, "/api/index"⟩

/-- A property child of kind 1024 with type `string` and no comment. -/
def sampleProp (n : String) : ReflectionRenderer.DeclR :=
  .mk 1024 n false Option.none [] [] (.some (.intrinsic "string")) Option.none

/-- A method child of kind 2048 with one signature `(): void` and no
comment. -/
def sampleMethod (n : String) : ReflectionRenderer.DeclR :=
  .mk 2048 n false Option.none [] [⟨[], .some (.intrinsic "void"), Option.none⟩]
    .none Option.none

/-- A class with exactly six properties. -/
def classSixProps : ReflectionRenderer.DeclR :=
  .mk 128 "Widget" false Option.none
    [sampleProp "p1", sampleProp "p2", sampleProp "p3",
      sampleProp "p4", sampleProp "p5", sampleProp "p6"] [] .none Option.none

/-- A class with exactly four properties. -/
def classFourProps : ReflectionRenderer.DeclR :=
  .mk 128 "Gadget" false Option.none
    [sampleProp "p1", sampleProp "p2", sampleProp "p3", sampleProp "p4"] [] .none Option.none

/-- A class with exactly four methods. -/
def classFourMethods : ReflectionRenderer.DeclR :=
  .mk 128 "Service" false Option.none
    [sampleMethod "m1", sampleMethod "m2", sampleMethod "m3", sampleMethod "m4"]
    [] .none Option.none

/-- A class with exactly three methods. -/
def classThreeMethods : ReflectionRenderer.DeclR :=
  .mk 128 "Helper" false Option.none
    [sampleMethod "m1", sampleMethod "m2", sampleMethod "m3"] [] .none Option.none

/-- An enum with members `A = "A"` and `B = "B"`, both without
descriptions. -/
def enumAB : ReflectionRenderer.DeclR :=
  .mk 8 "Color" false Option.none
    [.mk 16 "A" false Option.none [] [] .none (Option.some "\"A\""),
      .mk 16 "B" false Option.none [] [] .none (Option.some "\"B\"")]
    [] .none Option.none

/-- A parameter whose declaration comment supplies the description
`"No period"` (no terminating period). -/
def paramNoPeriod : ReflectionRenderer.ParamR :=
  ⟨"count", false, .some (.intrinsic "number"),
    Option.some ⟨Option.some [⟨Option.none, Option.some "No period"⟩], Option.none⟩⟩

/-- A declaration graph with exactly one class `Foo` and one interface
`Bar`. -/
def projFooBar : Theme.ReflList :=
  .cons (.mk 128 "Foo" .nil) (.cons (.mk 256 "Bar" .nil) .nil)

/-- The full `membersWithOwnFile` configuration. -/
def allMembers : Option (List String) :=
  Option.some ["Class", "Interface", "Function", "Enum", "TypeAlias"]

/-- The reference map built by `getUrls` for `projFooBar` with default
options (`flattenOutputFiles = false`, extension `.mdx`). -/
def fooBarMap : List (String × String) :=
  Theme.buildTypeToUrlMap false ".mdx" allMembers projFooBar

/-! ## Supporting lemmas -/

/-- Every character produced by the slug collapse is a slug character or a
hyphen. -/
theorem collapseNonAlnum_all (l : List Char) : ∀ b,
    ((Utils.collapseNonAlnum b l).all fun c => Utils.isSlugChar c || c == '-') = true := by
  induction l with
  | nil => intro b; simp [Utils.collapseNonAlnum]
  | cons c cs ih =>
    intro b
    by_cases h : Utils.isSlugChar c
    · simp [Utils.collapseNonAlnum, h, ih]
    · by_cases hb : b <;> simp [Utils.collapseNonAlnum, h, hb, ih]

/-- `dropWhile` preserves an `all` predicate. -/
theorem all_dropWhile (p q : Char → Bool) (l : List Char) (h : l.all p = true) :
    ((l.dropWhile q).all p) = true := by
  induction l with
  | nil => simp
  | cons c cs ih =>
    simp only [List.all_cons, Bool.and_eq_true] at h
    by_cases hq : q c = true
    · simp [List.dropWhile_cons, hq, ih h.2]
    · simp [List.dropWhile_cons, hq, h.1, h.2]

/-- The head surviving `dropWhile (· == '-')` is not a hyphen. -/
theorem head_dropWhile_dash (l : List Char) :
    (((l.dropWhile (· == '-')).head? == some '-')) = false := by
  induction l with
  | nil => simp
  | cons c cs ih =>
    by_cases h : c = '-'
    · simp [List.dropWhile_cons, h, ih]
    · simp [List.dropWhile_cons, h]

/-- A non-empty `dropWhile` keeps the last element. -/
theorem getLast?_dropWhile (p : Char → Bool) (l : List Char)
    (h : l.dropWhile p ≠ []) : (l.dropWhile p).getLast? = l.getLast? := by
  induction l with
  | nil => simp at h
  | cons c cs ih =>
    by_cases hp : p c = true
    · have hd : (c :: cs).dropWhile p = cs.dropWhile p := by simp [List.dropWhile_cons, hp]
      rw [hd] at h ⊢
      cases cs with
      | nil => simp at h
      | cons c2 cs2 => rw [ih h, List.getLast?_cons_cons]
    · simp [List.dropWhile_cons, hp]

/-- C10 — Implicit: for every input string `s`, `slugify s` consists only of
lowercase ASCII letters, digits and hyphens, and neither starts nor ends
with a hyphen. -/
theorem claim10_slugify_wellformed : ∀ s : String, Utils.slugOk (Utils.slugify s) = true := by
  intro s
  unfold Utils.slugOk Utils.slugify Utils.trimDashes
  set a := Utils.collapseNonAlnum false (s.data.map Char.toLower) with ha
  have hall : ((((a.dropWhile (· == '-')).reverse.dropWhile (· == '-')).reverse).all
      fun c => Utils.isSlugChar c || c == '-') = true := by
    rw [List.all_reverse]
    apply all_dropWhile
    rw [List.all_reverse]
    apply all_dropWhile
    exact collapseNonAlnum_all _ false
  have hhead : ((((a.dropWhile (· == '-')).reverse.dropWhile (· == '-')).reverse).head? ==
      some '-') = false := by
    rw [List.head?_reverse]
    by_cases hb : ((a.dropWhile (· == '-')).reverse.dropWhile (· == '-')) = []
    · simp [hb]
    · rw [getLast?_dropWhile _ _ hb, List.getLast?_reverse]
      exact head_dropWhile_dash a
  have hlast : ((((a.dropWhile (· == '-')).reverse.dropWhile (· == '-')).reverse).getLast? ==
      some '-') = false := by
    rw [List.getLast?_reverse]
    exact head_dropWhile_dash _
  simp only [bne, hall, hhead, hlast]
  rfl

/-- C5 — The parameter location classifier sends `userId` to `path`,
`limit` to `query`, `authorization` to `header` and `payload` to `body`. -/
theorem claim5_parameter_locations :
    ReflectionRenderer.determineParameterLocation "userId" = "path" ∧
    ReflectionRenderer.determineParameterLocation "limit" = "query" ∧
    ReflectionRenderer.determineParameterLocation "authorization" = "header" ∧
    ReflectionRenderer.determineParameterLocation "payload" = "body" := by
  refine ⟨?_, ?_, ?_, ?_⟩ <;> decide

/-- A line dropped by the tag-balancing scan leaves the stack unchanged
(the drop branches of lines 1017–1023 do not touch `tagStack`). -/
theorem balStep_stack_of_drop (st : List String) (l : String)
    (h : (Renderer.balStep st l).2 = false) : (Renderer.balStep st l).1 = st := by
  unfold Renderer.balStep at h ⊢
  cases hOpen : Renderer.findOpenTagName l.data with
  | some tag =>
    rw [hOpen] at h
    dsimp only at h
    simp at h
  | none =>
    rw [hOpen] at h
    dsimp only at h ⊢
    cases hClose : Renderer.findCloseTagName l.data with
    | none => rw [hClose] at h
    | some tag =>
      rw [hClose] at h
      dsimp only at h ⊢
      cases st with
      | nil =>
        dsimp only at h ⊢
        by_cases h3 : (tag == "CodeGroup") = true
        · rw [if_pos h3] at h; simp at h
        · rw [if_neg h3]
      | cons top rest =>
        dsimp only at h ⊢
        by_cases h1 : (top == tag) = true
        · rw [if_pos h1] at h; simp at h
        · rw [if_neg h1] at h ⊢
          by_cases h2 : ((top :: rest).contains tag) = true
          · rw [if_pos h2] at h; simp at h
          · rw [if_neg h2] at h ⊢
            by_cases h3 : (tag == "CodeGroup") = true
            · rw [if_pos h3] at h; simp at h
            · rw [if_neg h3]

/-- Rescanning the output of the tag-balancing scan (from the same initial
stack) reproduces it unchanged. -/
theorem balanceAux_idem (ls : List String) : ∀ st : List String,
    Renderer.balanceAux st (Renderer.balanceAux st ls) = Renderer.balanceAux st ls := by
  induction ls with
  | nil => intro st; simp [Renderer.balanceAux]
  | cons l rest ih =>
    intro st
    cases hk : (Renderer.balStep st l).2
    · have hst := balStep_stack_of_drop st l hk
      simp only [Renderer.balanceAux, hk, Bool.false_eq_true, if_false, hst]
      exact ih st
    · simp only [Renderer.balanceAux, hk, if_true]
      rw [ih]

/-- Rescanning the output of the tag-balancing scan drops nothing. -/
theorem balanceDropsAux_out (ls : List String) : ∀ st : List String,
    Renderer.balanceDropsAux st (Renderer.balanceAux st ls) = 0 := by
  induction ls with
  | nil => intro st; simp [Renderer.balanceAux, Renderer.balanceDropsAux]
  | cons l rest ih =>
    intro st
    cases hk : (Renderer.balStep st l).2
    · have hst := balStep_stack_of_drop st l hk
      simp only [Renderer.balanceAux, hk, Bool.false_eq_true, if_false, hst]
      exact ih st
    · simp only [Renderer.balanceAux, hk, if_true]
      simp only [Renderer.balanceDropsAux, hk, if_true]
      rw [ih]

/-- Splitting a newline-free text yields one piece. -/
theorem splitLinesAux_no_nl (l : List Char) : ∀ cur, '\n' ∉ l →
    splitLinesAux cur l = [cur.reverse ++ l] := by
  induction l with
  | nil => intro cur _; simp [splitLinesAux]
  | cons c cs ih =>
    intro cur h
    simp only [List.mem_cons, not_or] at h
    have hc : ¬((c == '\n') = true) := by
      simp only [beq_iff_eq]
      exact fun e => h.1 e.symm
    rw [splitLinesAux, if_neg hc, ih (c :: cur) h.2]
    simp

/-- Splitting across the first newline of a text. -/
theorem splitLinesAux_break (a : List Char) : ∀ cur (t : List Char), '\n' ∉ a →
    splitLinesAux cur (a ++ '\n' :: t) = (cur.reverse ++ a) :: splitLinesAux [] t := by
  induction a with
  | nil => intro cur t _; simp [splitLinesAux]
  | cons c cs ih =>
    intro cur t h
    simp only [List.mem_cons, not_or] at h
    have hc : ¬((c == '\n') = true) := by
      simp only [beq_iff_eq]
      exact fun e => h.1 e.symm
    rw [List.cons_append, splitLinesAux, if_neg hc, ih (c :: cur) t h.2]
    simp

/-- Pieces produced by the splitter contain no newline. -/
theorem splitLinesAux_pieces (l : List Char) : ∀ cur, '\n' ∉ cur →
    ∀ p ∈ splitLinesAux cur l, '\n' ∉ p := by
  induction l with
  | nil =>
    intro cur hc p hp
    simp [splitLinesAux] at hp
    subst hp
    simpa using hc
  | cons c cs ih =>
    intro cur hc p hp
    by_cases h : (c == '\n') = true
    · rw [splitLinesAux, if_pos h] at hp
      rcases List.mem_cons.mp hp with h1 | h2
      · subst h1; simpa using hc
      · exact ih [] (by simp) p h2
    · rw [splitLinesAux, if_neg h] at hp
      refine ih (c :: cur) ?_ p hp
      simp only [List.mem_cons, not_or]
      refine ⟨?_, hc⟩
      intro e
      exact h (by simp [e.symm])

/-- Every line of `splitLines` is newline-free. -/
theorem splitLines_pieces (s : String) : ∀ l ∈ splitLines s, '\n' ∉ l.data := by
  intro l hl
  unfold splitLines at hl
  rcases List.mem_map.mp hl with ⟨p, hp, rfl⟩
  exact splitLinesAux_pieces s.data [] (by simp) p hp

/-- The splitter never returns an empty list. -/
theorem splitLinesAux_ne_nil (l : List Char) : ∀ cur, splitLinesAux cur l ≠ [] := by
  induction l with
  | nil => intro cur; simp [splitLinesAux]
  | cons c cs ih =>
    intro cur
    by_cases h : (c == '\n') = true
    · rw [splitLinesAux, if_pos h]; simp
    · rw [splitLinesAux, if_neg h]; exact ih (c :: cur)

/-- `split('\n')` is a left inverse of `join('\n')` on newline-free
non-empty line lists. -/
theorem splitLines_joinLines : ∀ (ms : List String) (m : String),
    (∀ l ∈ m :: ms, '\n' ∉ l.data) → splitLines (joinLines (m :: ms)) = m :: ms := by
  intro ms
  induction ms with
  | nil =>
    intro m h
    have hm : '\n' ∉ m.data := h m (by simp)
    unfold splitLines joinLines
    rw [splitLinesAux_no_nl m.data [] hm]
    simp
  | cons m2 ms2 ih =>
    intro m h
    have hm : '\n' ∉ m.data := h m (by simp)
    have hrest : ∀ l ∈ m2 :: ms2, '\n' ∉ l.data := by
      intro l hl; exact h l (List.mem_cons_of_mem m hl)
    have hj : joinLines (m :: m2 :: ms2) = m ++ "\n" ++ joinLines (m2 :: ms2) := by
      rw [joinLines]
      simp
    have hdata : (joinLines (m :: m2 :: ms2)).data =
        m.data ++ '\n' :: (joinLines (m2 :: ms2)).data := by
      rw [hj]
      show (m.data ++ ['\n']) ++ (joinLines (m2 :: ms2)).data =
        m.data ++ '\n' :: (joinLines (m2 :: ms2)).data
      simp
    unfold splitLines
    rw [hdata, splitLinesAux_break m.data [] _ hm]
    simp only [List.map_cons, List.reverse_nil, List.nil_append]
    have htail := ih m2 hrest
    unfold splitLines at htail
    rw [htail]


/-- A line matching the H5 pattern starts with `'#'`. -/
theorem matchesH5_head (l : String) (h : Theme.matchesH5 l = true) :
    l.data.head? = some '#' := by
  unfold Theme.matchesH5 at h
  have hp : strStartsWith l "##### " = true := by
    cases hb : strStartsWith l "##### " with
    | true => rfl
    | false => rw [hb] at h; simp at h
  unfold strStartsWith at hp
  rcases List.isPrefixOf_iff_prefix.mp hp with ⟨t, ht⟩
  rw [← ht]
  rfl

/-- A line matching the H6 pattern starts with `'#'`. -/
theorem matchesH6_head (l : String) (h : Theme.matchesH6 l = true) :
    l.data.head? = some '#' := by
  unfold Theme.matchesH6 at h
  have hp : strStartsWith l "###### " = true := by
    cases hb : strStartsWith l "###### " with
    | true => rfl
    | false => rw [hb] at h; simp at h
  unfold strStartsWith at hp
  rcases List.isPrefixOf_iff_prefix.mp hp with ⟨t, ht⟩
  rw [← ht]
  rfl

/-- A line starting with `'*'` is not a deep heading. -/
theorem isDeepHeading_of_star (l : String) (h : l.data.head? = some '*') :
    Theme.isDeepHeading l = false := by
  unfold Theme.isDeepHeading
  cases h5 : Theme.matchesH5 l with
  | true => exfalso; rw [matchesH5_head l h5] at h; simp at h
  | false =>
    cases h6 : Theme.matchesH6 l with
    | true => exfalso; rw [matchesH6_head l h6] at h; simp at h
    | false => rfl

/-- Demoting a matching H5 line produces a line starting with `'*'`. -/
theorem flattenLine5_star (l : String) (h : Theme.matchesH5 l = true) :
    (Theme.flattenLine5 l).data.head? = some '*' := by
  unfold Theme.flattenLine5
  unfold Theme.matchesH5 at h
  rw [if_pos h]
  rfl

/-- A non-matching line is unchanged by the H5 demotion. -/
theorem flattenLine5_id (l : String) (h : Theme.matchesH5 l = false) :
    Theme.flattenLine5 l = l := by
  unfold Theme.flattenLine5
  unfold Theme.matchesH5 at h
  exact if_neg (fun hc => by rw [hc] at h; exact Bool.noConfusion h)

/-- Demoting a matching H6 line produces a line starting with `'*'`. -/
theorem flattenLine6_star (l : String) (h : Theme.matchesH6 l = true) :
    (Theme.flattenLine6 l).data.head? = some '*' := by
  unfold Theme.flattenLine6
  unfold Theme.matchesH6 at h
  rw [if_pos h]
  rfl

/-- A non-matching line is unchanged by the H6 demotion. -/
theorem flattenLine6_id (l : String) (h : Theme.matchesH6 l = false) :
    Theme.flattenLine6 l = l := by
  unfold Theme.flattenLine6
  unfold Theme.matchesH6 at h
  exact if_neg (fun hc => by rw [hc] at h; exact Bool.noConfusion h)

/-- After both demotions no deep heading remains on a line. -/
theorem line_noDeep (l : String) :
    Theme.isDeepHeading (Theme.flattenLine6 (Theme.flattenLine5 l)) = false := by
  cases h5 : Theme.matchesH5 l with
  | true =>
    have hstar := flattenLine5_star l h5
    cases h6 : Theme.matchesH6 (Theme.flattenLine5 l) with
    | true => exact isDeepHeading_of_star _ (flattenLine6_star _ h6)
    | false =>
      rw [flattenLine6_id _ h6]
      exact isDeepHeading_of_star _ hstar
  | false =>
    rw [flattenLine5_id l h5]
    cases h6 : Theme.matchesH6 l with
    | true => exact isDeepHeading_of_star _ (flattenLine6_star _ h6)
    | false =>
      rw [flattenLine6_id _ h6]
      unfold Theme.isDeepHeading
      rw [h5, h6]
      rfl

/-- Line demotion introduces no newline. -/
theorem flattenLine5_no_nl (l : String) (h : '\n' ∉ l.data) :
    '\n' ∉ (Theme.flattenLine5 l).data := by
  unfold Theme.flattenLine5
  split
  · intro hmem
    have heq : ("**" ++ (⟨l.data.drop 6⟩ : String) ++ "**").data =
        ['*', '*'] ++ l.data.drop 6 ++ ['*', '*'] := rfl
    rw [heq] at hmem
    simp at hmem
    exact h (List.drop_subset 6 l.data hmem)
  · exact h

/-- Line demotion introduces no newline (H6). -/
theorem flattenLine6_no_nl (l : String) (h : '\n' ∉ l.data) :
    '\n' ∉ (Theme.flattenLine6 l).data := by
  unfold Theme.flattenLine6
  split
  · intro hmem
    have heq : ("**" ++ (⟨l.data.drop 7⟩ : String) ++ "**").data =
        ['*', '*'] ++ l.data.drop 7 ++ ['*', '*'] := rfl
    rw [heq] at hmem
    simp at hmem
    exact h (List.drop_subset 7 l.data hmem)
  · exact h

/-- The splitter never returns an empty list of lines. -/
theorem splitLines_ne_nil (s : String) : splitLines s ≠ [] := by
  unfold splitLines
  intro hnil
  have hne := splitLinesAux_ne_nil s.data []
  cases h : splitLinesAux [] s.data with
  | nil => exact hne h
  | cons a l => rw [h] at hnil; simp at hnil

/-- Splitting the join of nonempty, newline-free pieces recovers the pieces. -/
theorem splitLines_joinLines_ne (ms : List String) (hne : ms ≠ [])
    (h : ∀ l ∈ ms, '\n' ∉ l.data) : splitLines (joinLines ms) = ms := by
  obtain ⟨m, ms2, rfl⟩ := List.exists_cons_of_ne_nil hne
  exact splitLines_joinLines ms2 m h

/-- The lines of `flattenHeadings` are exactly the demoted input lines. -/
theorem flattenHeadings_lines (s : String) :
    splitLines (Theme.flattenHeadings s) =
      ((splitLines s).map Theme.flattenLine5).map Theme.flattenLine6 := by
  unfold Theme.flattenHeadings
  have h5 : splitLines (joinLines ((splitLines s).map Theme.flattenLine5)) =
      (splitLines s).map Theme.flattenLine5 := by
    apply splitLines_joinLines_ne
    · intro hmap
      exact splitLines_ne_nil s (by simpa using hmap)
    · intro l hl
      rcases List.mem_map.mp hl with ⟨x, hx, rfl⟩
      exact flattenLine5_no_nl x (splitLines_pieces s x hx)
  show splitLines (joinLines ((splitLines
      (joinLines ((splitLines s).map Theme.flattenLine5))).map Theme.flattenLine6)) =
    ((splitLines s).map Theme.flattenLine5).map Theme.flattenLine6
  rw [h5]
  apply splitLines_joinLines_ne
  · intro hmap
    exact splitLines_ne_nil s (by simpa using hmap)
  · intro l hl
    rcases List.mem_map.mp hl with ⟨x, hx, rfl⟩
    rcases List.mem_map.mp hx with ⟨y, hy, rfl⟩
    exact flattenLine6_no_nl _ (flattenLine5_no_nl y (splitLines_pieces s y hy))

/-- No line of a flattened document is a deep (H5/H6) heading. -/
theorem flattenHeadings_noDeep (s : String) :
    ((splitLines (Theme.flattenHeadings s)).all fun l => !Theme.isDeepHeading l) = true := by
  rw [flattenHeadings_lines]
  rw [List.all_eq_true]
  intro l hl
  rcases List.mem_map.mp hl with ⟨x, hx, rfl⟩
  rcases List.mem_map.mp hx with ⟨y, _, rfl⟩
  simp [line_noDeep y]

/-- C2 counterexample: the document consisting of the line `<Accordion>`
followed by `hello` passes the structural repair and heading flattening
unchanged, yet its `<Accordion>` open tag has no matching close: the
repaired text retains an unmatched container-markup element. -/
theorem claim2_counterexample :
    Renderer.beautifyStructure "<Accordion>\nhello" = "<Accordion>\nhello" ∧
    Theme.flattenHeadings "<Accordion>\nhello" = "<Accordion>\nhello" ∧
    Renderer.unmatchedOpens "<Accordion>\nhello" = ["Accordion"] := by
  set_option maxRecDepth 10000 in decide

/-- C2 (amended): after the tag-balancing pass no orphaned closing tag
remains (rescanning its output drops nothing), and after heading
flattening no line of the document is an H5/H6 heading. Unmatched
*opening* tags, however, are left in place. -/
theorem claim2_amended :
    (∀ ls, Renderer.balanceDrops (Renderer.balancePass ls) = 0) ∧
    (∀ s, ((splitLines (Theme.flattenHeadings s)).all
      fun l => !Theme.isDeepHeading l) = true) :=
  ⟨fun ls => balanceDropsAux_out ls [], flattenHeadings_noDeep⟩

/-- C3 counterexample: the structural repair is not idempotent. On the
document consisting of a fence line, an empty line and the line `..`,
one application yields the line `.` (the standalone-period filter removes
only the first match per pass), and a second application removes it
again, so repair (repair d) differs from repair d. -/
theorem claim3_counterexample :
    Renderer.beautifyStructure "```\n\n.." = "```\n\n." ∧
    Renderer.beautifyStructure (Renderer.beautifyStructure "```\n\n..") = "```\n\n" ∧
    Renderer.beautifyStructure (Renderer.beautifyStructure "```\n\n..") ≠
      Renderer.beautifyStructure "```\n\n.." := by
  set_option maxRecDepth 10000 in decide

/-- C3 (amended): the tag-balancing component of the structural repair is
idempotent — rescanning its own output from the empty stack reproduces it
verbatim. The full repair pipeline is not a fixed point on its own output
(see the counterexample). -/
theorem claim3_amended :
    ∀ ls, Renderer.balancePass (Renderer.balancePass ls) = Renderer.balancePass ls :=
  fun ls => balanceAux_idem ls []

/-- C1 counterexample: for a project with one Class `Foo` and one Interface
`Bar`, the reference map records `Foo -> api/classes/Foo` and
`Bar -> api/interfaces/Bar` — the recorded locations carry an `api/`
prefix and the raw (unslugified) reflection name, not `classes/foo` and
`interfaces/bar` as claimed. -/
theorem claim1_counterexample :
    lookupMap fooBarMap "Foo" = some "api/classes/Foo" ∧
    lookupMap fooBarMap "Bar" = some "api/interfaces/Bar" ∧
    lookupMap fooBarMap "Foo" ≠ some ("classes/" ++ Utils.slugify "Foo") ∧
    lookupMap fooBarMap "Bar" ≠ some ("interfaces/" ++ Utils.slugify "Bar") := by
  decide

/-- C1 (amended): for a declaration graph containing exactly one Class named
`Foo` and one Interface named `Bar`, building the reference map records an
entry for each: `Foo` maps to `api/classes/Foo` and `Bar` maps to
`api/interfaces/Bar` (an `api/` prefix, the kind-specific folder, and the
declaration's name verbatim, with the file extension stripped). -/
theorem claim1_amended :
    fooBarMap = [("Foo", "api/classes/Foo"), ("Bar", "api/interfaces/Bar")] := by
  decide

/-- C7: rendering an Enum whose two members `A = "A"` and `B = "B"` carry no
descriptions produces a table with exactly two member rows, each of whose
description cell is the em-dash placeholder. -/
theorem claim7_enum_placeholder :
    (splitLines (ReflectionRenderer.renderEnum rrState0 enumAB)).filter
        (fun l => strStartsWith l "| `") =
      ["| `A` | `\"A\"` | — |", "| `B` | `\"B\"` | — |"] ∧
    ReflectionRenderer.renderEnum rrState0 enumAB =
      "<Toc>\n- [Members](#members)\n</Toc>\n\n### Members\n\n" ++
      "| Name | Value | Description |\n|------|-------|-------------|\n" ++
      "| `A` | `\"A\"` | — |\n| `B` | `\"B\"` | — |\n\n" := by
  set_option maxRecDepth 10000 in decide

/-- C6: a Class with exactly 6 properties renders them inside a single
disclosure-group container (`<AccordionGroup>` opened and closed once) with
one named `<Accordion title="...">` section per property; a Class with
exactly 4 properties renders them flatly with no container. The analogous
method threshold is 3: 4 methods get a group, 3 do not. -/
theorem claim6_class_thresholds :
    countSub (ReflectionRenderer.renderClass rrState0 classSixProps) "<AccordionGroup>" = 1 ∧
    countSub (ReflectionRenderer.renderClass rrState0 classSixProps) "</AccordionGroup>" = 1 ∧
    countSub (ReflectionRenderer.renderClass rrState0 classSixProps) "<Accordion title=" = 6 ∧
    strIncludes (ReflectionRenderer.renderClass rrState0 classSixProps) "<Accordion title=\"p1\">" = true ∧
    strIncludes (ReflectionRenderer.renderClass rrState0 classSixProps) "<Accordion title=\"p6\">" = true ∧
    countSub (ReflectionRenderer.renderClass rrState0 classFourProps) "<AccordionGroup>" = 0 ∧
    countSub (ReflectionRenderer.renderClass rrState0 classFourProps) "<Accordion title=" = 0 ∧
    strIncludes (ReflectionRenderer.renderClass rrState0 classFourProps) "**p1**" = true ∧
    strIncludes (ReflectionRenderer.renderClass rrState0 classFourProps) "**p4**" = true ∧
    countSub (ReflectionRenderer.renderClass rrState0 classFourMethods) "<AccordionGroup>" = 1 ∧
    countSub (ReflectionRenderer.renderClass rrState0 classThreeMethods) "<AccordionGroup>" = 0 := by
  set_option maxRecDepth 100000 in decide

/-- Appending to a period-terminated string stays period-terminated. -/
theorem endsPeriod_append (a b : String) (h : ReflectionRenderer.endsPeriod b = true) :
    ReflectionRenderer.endsPeriod (a ++ b) = true := by
  unfold ReflectionRenderer.endsPeriod at h ⊢
  have hl : b.data.getLast? = some '.' := by simpa using h
  have hne : b.data ≠ [] := by intro hb; rw [hb] at hl; simp at hl
  have hd : (a ++ b).data = a.data ++ b.data := rfl
  rw [hd, List.getLast?_append_of_ne_nil _ hne, hl]
  simp

/-- C8 counterexample: a parameter whose comment supplies the description
`No period` is rendered with that text verbatim inside its `ParamField`
block — supplied descriptions are not normalized to end with a period. -/
theorem claim8_counterexample :
    ReflectionRenderer.renderParameters rrState0 [paramNoPeriod] =
      "<ParamField path=\"count\" type=\"number\" required>\nNo period\n</ParamField>\n\n" ∧
    ReflectionRenderer.paramFieldDescriptions
      (ReflectionRenderer.renderParameters rrState0 [paramNoPeriod]) = ["No period"] ∧
    ReflectionRenderer.endsPeriod "No period" = false := by
  set_option maxRecDepth 10000 in decide

set_option maxHeartbeats 1000000 in
/-- C8 (amended): every description *synthesized* by the name/type lexicon
ends with a terminating period; descriptions supplied by the declaration's
comment are emitted verbatim and need not (see the counterexample). -/
theorem claim8_amended :
    ∀ name ty, ReflectionRenderer.endsPeriod
      (ReflectionRenderer.generateParameterDescription name ty) = true := by
  intro name ty
  simp only [ReflectionRenderer.generateParameterDescription]
  repeat' split
  all_goals first
    | exact endsPeriod_append _ _ (by decide)
    | decide

/-- Fuel adequacy for the mutual formatter family: any fuel at least the
size of the tree suffices, and the result is the unfuelled formatter's. -/
theorem formatTyFuel_adequate (refs : List (String × String)) : ∀ n : Nat,
    (∀ t : Utils.Ty, Utils.sizeTy t ≤ n →
      Utils.formatTyFuel refs n t = Option.some (Utils.formatTy refs t)) ∧
    (∀ o : Utils.OptTy, Utils.sizeOptTy o ≤ n →
      Utils.formatTyOptFuel refs n o = Option.some (Utils.formatTyOpt refs o)) ∧
    (∀ ts : Utils.TyList, Utils.sizeTyList ts ≤ n →
      Utils.formatTyListFuel refs n ts = Option.some (Utils.formatTyList refs ts)) ∧
    (∀ d : Utils.OptDecl, Utils.sizeOptDecl d ≤ n →
      Utils.formatReflDeclFuel refs n d = Option.some (Utils.formatReflDecl refs d)) ∧
    (∀ ps : Utils.ParamList, Utils.sizeParamList ps ≤ n →
      Utils.formatParamListFuel refs n ps = Option.some (Utils.formatParamList refs ps)) := by
  intro n
  induction n with
  | zero =>
    refine ⟨?_, ?_, ?_, ?_, ?_⟩ <;> intro x hx
    · cases x <;>
        simp only [Utils.sizeTy] at hx <;> omega
    · cases x <;>
        simp only [Utils.sizeOptTy] at hx <;> omega
    · cases x <;>
        simp only [Utils.sizeTyList] at hx <;> omega
    · cases x <;>
        simp only [Utils.sizeOptDecl] at hx <;> omega
    · cases x <;>
        simp only [Utils.sizeParamList] at hx <;> omega
  | succ n ih =>
    obtain ⟨ihT, ihO, ihL, ihD, ihP⟩ := ih
    refine ⟨?_, ?_, ?_, ?_, ?_⟩
    · intro t ht
      cases t with
      | intrinsic name => simp [Utils.formatTyFuel, Utils.formatTy]
      | reference name args =>
        cases args with
        | nil => simp [Utils.formatTyFuel, Utils.formatTy]
        | cons h t =>
          have hle : Utils.sizeTyList (Utils.TyList.cons h t) ≤ n := by
            simp only [Utils.sizeTy] at ht; omega
          simp [Utils.formatTyFuel, Utils.formatTy, ihL _ hle]
      | array elem =>
        have hle : Utils.sizeTy elem ≤ n := by
          simp only [Utils.sizeTy] at ht; omega
        simp [Utils.formatTyFuel, Utils.formatTy, ihT elem hle]
      | union ts =>
        have hle : Utils.sizeTyList ts ≤ n := by
          simp only [Utils.sizeTy] at ht; omega
        simp [Utils.formatTyFuel, Utils.formatTy, ihL ts hle]
      | intersection ts =>
        have hle : Utils.sizeTyList ts ≤ n := by
          simp only [Utils.sizeTy] at ht; omega
        simp [Utils.formatTyFuel, Utils.formatTy, ihL ts hle]
      | literal v => simp [Utils.formatTyFuel, Utils.formatTy]
      | tuple ts =>
        have hle : Utils.sizeTyList ts ≤ n := by
          simp only [Utils.sizeTy] at ht; omega
        simp [Utils.formatTyFuel, Utils.formatTy, ihL ts hle]
      | reflection d =>
        have hle : Utils.sizeOptDecl d ≤ n := by
          simp only [Utils.sizeTy] at ht; omega
        simp [Utils.formatTyFuel, Utils.formatTy, ihD d hle]
      | conditional c e t' f =>
        have h1 : Utils.sizeTy c ≤ n := by simp only [Utils.sizeTy] at ht; omega
        have h2 : Utils.sizeTy e ≤ n := by simp only [Utils.sizeTy] at ht; omega
        have h3 : Utils.sizeTy t' ≤ n := by simp only [Utils.sizeTy] at ht; omega
        have h4 : Utils.sizeTy f ≤ n := by simp only [Utils.sizeTy] at ht; omega
        simp [Utils.formatTyFuel, Utils.formatTy, ihT c h1, ihT e h2, ihT t' h3, ihT f h4]
      | indexedAccess o i =>
        have h1 : Utils.sizeTy o ≤ n := by simp only [Utils.sizeTy] at ht; omega
        have h2 : Utils.sizeTy i ≤ n := by simp only [Utils.sizeTy] at ht; omega
        simp [Utils.formatTyFuel, Utils.formatTy, ihT o h1, ihT i h2]
      | query nm => simp [Utils.formatTyFuel, Utils.formatTy]
      | predicate nm ty =>
        have hle : Utils.sizeOptTy ty ≤ n := by
          simp only [Utils.sizeTy] at ht; omega
        simp [Utils.formatTyFuel, Utils.formatTy, ihO ty hle]
      | templateLiteral ts => simp [Utils.formatTyFuel, Utils.formatTy]
      | other ts => simp [Utils.formatTyFuel, Utils.formatTy]
    · intro o ho
      cases o with
      | none => simp [Utils.formatTyOptFuel, Utils.formatTyOpt]
      | some t =>
        have hle : Utils.sizeTy t ≤ n := by
          simp only [Utils.sizeOptTy] at ho; omega
        simp [Utils.formatTyOptFuel, Utils.formatTyOpt, ihT t hle]
    · intro ts hts
      cases ts with
      | nil => simp [Utils.formatTyListFuel, Utils.formatTyList]
      | cons h t =>
        have h1 : Utils.sizeTy h ≤ n := by
          simp only [Utils.sizeTyList] at hts; omega
        have h2 : Utils.sizeTyList t ≤ n := by
          simp only [Utils.sizeTyList] at hts; omega
        simp [Utils.formatTyListFuel, Utils.formatTyList, ihT h h1, ihL t h2]
    · intro d hd
      cases d with
      | none => simp [Utils.formatReflDeclFuel, Utils.formatReflDecl]
      | some rd =>
        cases rd with
        | mk sigs children =>
          cases sigs with
          | cons s rest =>
            cases s with
            | mk params ret =>
              have h1 : Utils.sizeParamList params ≤ n := by
                simp only [Utils.sizeOptDecl, Utils.sizeReflDecl, Utils.sizeSigList,
                  Utils.sizeReflSig] at hd
                omega
              have h2 : Utils.sizeOptTy ret ≤ n := by
                simp only [Utils.sizeOptDecl, Utils.sizeReflDecl, Utils.sizeSigList,
                  Utils.sizeReflSig] at hd
                omega
              simp [Utils.formatReflDeclFuel, Utils.formatReflDecl, ihP params h1, ihO ret h2]
          | nil =>
            cases children with
            | nil => simp [Utils.formatReflDeclFuel, Utils.formatReflDecl]
            | cons c cs =>
              have hle : Utils.sizeParamList (Utils.ParamList.cons c cs) ≤ n := by
                simp only [Utils.sizeOptDecl, Utils.sizeReflDecl, Utils.sizeSigList] at hd
                omega
              simp [Utils.formatReflDeclFuel, Utils.formatReflDecl, ihP _ hle]
    · intro ps hps
      cases ps with
      | nil => simp [Utils.formatParamListFuel, Utils.formatParamList]
      | cons p rest =>
        cases p with
        | mk name opt ty =>
          have h1 : Utils.sizeOptTy ty ≤ n := by
            simp only [Utils.sizeParamList, Utils.sizeReflParam] at hps; omega
          have h2 : Utils.sizeParamList rest ≤ n := by
            simp only [Utils.sizeParamList, Utils.sizeReflParam] at hps; omega
          simp [Utils.formatParamListFuel, Utils.formatParamList, ihO ty h1, ihP rest h2]

/-- C9: the type formatter terminates on every finite type tree — the
fuel-instrumented formatter, given fuel equal to the tree's node count,
completes (returns `some`) and agrees with the structurally recursive
formatter; no artificial depth limit is involved. -/
theorem claim9_format_terminates :
    ∀ (refs : List (String × String)) (t : Utils.Ty),
      Utils.formatTyFuel refs (Utils.sizeTy t) t = Option.some (Utils.formatTy refs t) :=
  fun refs t => (formatTyFuel_adequate refs (Utils.sizeTy t)).1 t (Nat.le_refl _)

/-- The per-line pass of the link injector preserves fence-marker lines and
every line lying inside an open fence, for any fence state. -/
theorem linePhase_fencePreserved (tn url : String) :
    ∀ (ls : List String) (b : Bool),
      Theme.fencePreserved b ls (Theme.linePhase tn url b ls) = true := by
  intro ls
  induction ls with
  | nil => intro b; rfl
  | cons l rest ih =>
    intro b
    by_cases hf : Theme.fenceLine l = true
    · simp [Theme.linePhase, Theme.fencePreserved, hf, ih]
    · cases b with
      | true => simp [Theme.linePhase, Theme.fencePreserved, hf, ih]
      | false =>
        by_cases hs : Theme.hasFnSig l.data = true
        · simp [Theme.linePhase, Theme.fencePreserved, hf, hs, ih]
        · simp [Theme.linePhase, Theme.fencePreserved, hf, hs, ih]

/-- C4 counterexample: with the reference map `Foo -> api/classes/Foo`, the
document whose middle line `x: `Foo`` lies strictly between a fence-opening
line and its fence-closing line comes out with that occurrence rewritten to
a hyperlink: the whole-document parameter-type pattern ignores fences. -/
theorem claim4_counterexample :
    Theme.addTypeLinksToIndexPage [("Foo", "api/classes/Foo")] "```\nx: `Foo`\n```" =
      "```\nx: [`Foo`](/api/classes/Foo)\n```" ∧
    splitLines "```\nx: `Foo`\n```" = ["```", "x: `Foo`", "```"] ∧
    Theme.fenceLine "```" = true ∧
    ("x: [`Foo`](/api/classes/Foo)" ≠ "x: `Foo`") := by
  set_option maxRecDepth 10000 in decide

/-- C4 (amended): the *per-line* rewrites of the link injector never touch a
fenced literal block — for every document, every type name and any initial
fence state, fence-marker lines and lines inside an open fence are
reproduced verbatim.  The trailing parameter-type pattern, however, is
applied to the whole text without fence tracking and can introduce a link
inside a fence (see the counterexample). -/
theorem claim4_amended :
    ∀ (tn url : String) (b : Bool) (ls : List String),
      Theme.fencePreserved b ls (Theme.linePhase tn url b ls) = true :=
  fun tn url b ls => linePhase_fencePreserved tn url ls b
